import Mathlib

/-! Package middledriver: middleware chains around a database/sql driver.

A shallow embedding of the Go package `middledriver`
(`middledriver.go`, `ctxutil.go`, `conn.go`, `stmt.go`, `driver.go`).

Conventions of the embedding

* A Go call that touches the outside world (the wrapped driver, an
  interceptor, a statement factory) is a function of the world state
  `σ`: it takes the state and returns `none` when the call does not return
  normally (a run-time panic), or `some (value, state after the call)`.
* A Go result pair `(x, err)` whose two halves are both handed on is a
  Lean pair of options (`none` is Go `nil`).  Where the source only ever looks
  at the value after testing `err != nil`, the pair is an `Except`.
* Optional capabilities of a wrapped handle (the Go type assertions
  `target.(driver.QueryerContext)` and friends) are optional fields of the
  record that stands for the handle.
* A middleware is a function from the next interceptor to a new
  interceptor, as its Go type says; building the wrapper has no effect of its
  own, the effects happen when the interceptor it returns is called.
-/

namespace Middledriver

/-! ## Data model -/

/-- Go `error` value, identified by its message. -/
structure Error where
  msg : String
deriving DecidableEq, Repr

/-- Go `driver.Value`: the scalar kinds a driver accepts.  The type is an
empty interface in Go, so it can also hold a plain Go `int`, which is not one
of those kinds; `Conn.Ping` builds such a value. -/
inductive Value where
  | null
  | int64 (i : Int)
  | bool (b : Bool)
  | bytes (b : List Nat)
  | string (s : String)
  | time (t : Int)
  | int (i : Int)
deriving DecidableEq, Repr

/-- Go `driver.NamedValue`. -/
structure NamedValue where
  Name : String
  Ordinal : Int
  Value : Value
deriving DecidableEq, Repr

/-- Go `driver.Rows`, handed through by this layer without being looked at. -/
structure Rows where
  ColumnNames : List String
  Data : List (List Value)
deriving DecidableEq, Repr

/-- Go `driver.Result`, handed through by this layer without being looked at. -/
structure Result where
  LastInsertId : Int
  RowsAffected : Int
deriving DecidableEq, Repr

/-- A call over the world state `σ`: `none` is a call that panics. -/
abbrev M (σ α : Type) : Type := σ → Option (α × σ)

/-- Go `context.Context`: `Done` is `none` for a context that can never be
cancelled (a nil channel), otherwise it tells whether the channel is closed in
the present state; `Err` is what `ctx.Err()` reports in that state. -/
structure Context (σ : Type) where
  Done : Option (σ → Bool)
  Err : σ → Option Error

/-- The non-blocking poll `select { case <-ctx.Done(): ...; default: }`:
true when the receive is ready.  A nil channel is never ready. -/
def Context.isDone {σ : Type} (ctx : Context σ) (s : σ) : Bool :=
  match ctx.Done with
  | none => false
  | some closed => closed s

/-- Go `QueryContextFunc`. -/
abbrev QueryContextFunc (σ : Type) : Type :=
  Context σ → String → List NamedValue → M σ (Option Rows × Option Error)

/-- Go `ExecContextFunc`. -/
abbrev ExecContextFunc (σ : Type) : Type :=
  Context σ → String → List NamedValue → M σ (Option Result × Option Error)

/-- Go `StmtQueryContextFunc`. -/
abbrev StmtQueryContextFunc (σ : Type) : Type :=
  Context σ → List NamedValue → M σ (Option Rows × Option Error)

/-- Go `StmtExecContextFunc`. -/
abbrev StmtExecContextFunc (σ : Type) : Type :=
  Context σ → List NamedValue → M σ (Option Result × Option Error)

/-- Go `QueryContextMiddleware`. -/
abbrev QueryContextMiddleware (σ : Type) : Type :=
  QueryContextFunc σ → QueryContextFunc σ

/-- Go `ExecContextMiddleware`. -/
abbrev ExecContextMiddleware (σ : Type) : Type :=
  ExecContextFunc σ → ExecContextFunc σ

/-- Go `StmtQueryContextMiddleware`. -/
abbrev StmtQueryContextMiddleware (σ : Type) : Type :=
  StmtQueryContextFunc σ → StmtQueryContextFunc σ

/-- Go `StmtExecContextMiddleware`. -/
abbrev StmtExecContextMiddleware (σ : Type) : Type :=
  StmtExecContextFunc σ → StmtExecContextFunc σ

/-- Go `NewStmtQueryContextMiddleware`: called with the query text when a
statement is prepared; it either fails or yields a middleware. -/
abbrev NewStmtQueryContextMiddleware (σ : Type) : Type :=
  String → M σ (Except Error (StmtQueryContextMiddleware σ))

/-- Go `NewStmtExecContextMiddleware`. -/
abbrev NewStmtExecContextMiddleware (σ : Type) : Type :=
  String → M σ (Except Error (StmtExecContextMiddleware σ))

/-- Go `MiddlewareGroup`; a field left unset is `none`. -/
structure MiddlewareGroup (σ : Type) where
  QueryContextMiddleware : Option (QueryContextMiddleware σ)
  ExecContextMiddleware : Option (ExecContextMiddleware σ)
  NewStmtExecContextMiddleware : Option (NewStmtExecContextMiddleware σ)
  NewStmtQueryContextMiddleware : Option (NewStmtQueryContextMiddleware σ)

/-! ## The wrapped driver: handles and their optional capabilities -/

/-- Go `driver.Stmt` handle of the wrapped driver.  `QueryContext`,
`ExecContext` and `CheckNamedValue` are the optional interfaces
`driver.StmtQueryContext`, `driver.StmtExecContext` and
`driver.NamedValueChecker`. -/
structure TargetStmt (σ : Type) where
  Close : M σ (Option Error)
  NumInput : M σ Int
  Exec : List Value → M σ (Option Result × Option Error)
  Query : List Value → M σ (Option Rows × Option Error)
  QueryContext : Option (StmtQueryContextFunc σ)
  ExecContext : Option (StmtExecContextFunc σ)
  CheckNamedValue : Option (NamedValue → M σ (NamedValue × Option Error))

/-- Go `driver.Tx` handle of the wrapped driver. -/
structure Tx (σ : Type) where
  Commit : M σ (Option Error)
  Rollback : M σ (Option Error)

/-- Go `driver.TxOptions`. -/
structure TxOptions where
  Isolation : Int
  ReadOnly : Bool
deriving DecidableEq, Repr

/-- Go `driver.Conn` handle of the wrapped driver.  `Prepare`, `Close` and
`Begin` are the mandatory methods; the optional fields are the interfaces
`driver.QueryerContext`, `driver.Queryer`, `driver.ExecerContext`,
`driver.Execer`, `driver.ConnPrepareContext`, `driver.ConnBeginTx`,
`driver.Pinger` and `driver.NamedValueChecker`. -/
structure TargetConn (σ : Type) where
  Prepare : String → M σ (Except Error (TargetStmt σ))
  Close : M σ (Option Error)
  Begin : M σ (Option (Tx σ) × Option Error)
  QueryContext : Option (QueryContextFunc σ)
  Query : Option (String → List Value → M σ (Option Rows × Option Error))
  ExecContext : Option (ExecContextFunc σ)
  Exec : Option (String → List Value → M σ (Option Result × Option Error))
  PrepareContext : Option (Context σ → String → M σ (Except Error (TargetStmt σ)))
  BeginTx : Option (Context σ → TxOptions → M σ (Option (Tx σ) × Option Error))
  Ping : Option (Context σ → M σ (Option Error))
  CheckNamedValue : Option (NamedValue → M σ (NamedValue × Option Error))

/-- Go `driver.Connector` handle of the wrapped driver. -/
structure TargetConnector (σ : Type) where
  Connect : Context σ → M σ (Except Error (TargetConn σ))

/-- Go `driver.Driver` handle of the wrapped driver; `OpenConnector` is the
optional interface `driver.DriverContext`. -/
structure TargetDriver (σ : Type) where
  Open : String → M σ (Except Error (TargetConn σ))
  OpenConnector : Option (String → M σ (Except Error (TargetConnector σ)))

/-- Go `Driver` (driver.go). -/
structure Driver (σ : Type) where
  Target : TargetDriver σ
  MiddlewareGroup : MiddlewareGroup σ

/-- Go `Conn` (conn.go).  The two strategy fields are nil in the struct
literal `Conn{driver: dri, target: target}` and set afterwards by `newConn`. -/
structure Conn (σ : Type) where
  driver : Driver σ
  target : TargetConn σ
  queryContextFunc : Option (QueryContextFunc σ)
  execContextFunc : Option (ExecContextFunc σ)

/-- Go `Stmt` (stmt.go).  The two middleware fields are declared by the
source and never assigned. -/
structure Stmt (σ : Type) where
  target : TargetStmt σ
  queryContextMiddleware : Option (StmtQueryContextMiddleware σ)
  execContextMiddleware : Option (StmtExecContextMiddleware σ)
  conn : Conn σ
  query : String
  queryContextFunc : Option (StmtQueryContextFunc σ)
  execContextFunc : Option (StmtExecContextFunc σ)

/-! ## middledriver.go: chain builders -/

/-- The loop `for idx := len(middlewares) - 1; idx >= 0; idx-- { next =
middlewares[idx](next) }` shared, text for text, by the four chain builders.
The counter `k` is `idx + 1`. -/
def chainLoop {α : Type} (middlewares : List (α → α)) : Nat → α → α
  | 0, next => next
  | idx + 1, next =>
    match middlewares[idx]? with
    | some middleware => chainLoop middlewares idx (middleware next)
    | none => chainLoop middlewares idx next

/-- Go `QueryContextMiddlewareChain`. -/
def QueryContextMiddlewareChain {σ : Type}
    (middlewares : List (QueryContextMiddleware σ)) : QueryContextMiddleware σ :=
  fun next =>
    let next := chainLoop middlewares middlewares.length next
    fun ctx query namedArg => next ctx query namedArg

/-- Go `ExecContextMiddlewareChain`. -/
def ExecContextMiddlewareChain {σ : Type}
    (middlewares : List (ExecContextMiddleware σ)) : ExecContextMiddleware σ :=
  fun next =>
    let next := chainLoop middlewares middlewares.length next
    fun ctx query namedArg => next ctx query namedArg

/-- The construction loop of the statement chain builders: `idx` runs from
`len(newMiddlewares) - 1` down to `0`, each factory is called with the query
text, and the first error met ends the loop.  `middlewares` holds the slots
`idx + 1 ..` of the Go slice, which are the ones filled so far. -/
def newChainLoop {σ α : Type} (newMiddlewares : List (String → M σ (Except Error α)))
    (query : String) : Nat → List α → M σ (Except Error (List α))
  | 0, middlewares => fun s => some (Except.ok middlewares, s)
  | idx + 1, middlewares => fun s =>
    match newMiddlewares[idx]? with
    | none => newChainLoop newMiddlewares query idx middlewares s
    | some newMiddleware =>
      match newMiddleware query s with
      | none => none
      | some (Except.error err, s1) => some (Except.error err, s1)
      | some (Except.ok middleware, s1) =>
        newChainLoop newMiddlewares query idx (middleware :: middlewares) s1

/-- Go `NewStmtQueryContextMiddlewareChain`. -/
def NewStmtQueryContextMiddlewareChain {σ : Type}
    (newMiddlewares : List (NewStmtQueryContextMiddleware σ)) :
    NewStmtQueryContextMiddleware σ :=
  fun query s =>
    match newChainLoop newMiddlewares query newMiddlewares.length [] s with
    | none => none
    | some (Except.error err, s1) => some (Except.error err, s1)
    | some (Except.ok middlewares, s1) =>
      some (Except.ok (fun next =>
        let next := chainLoop middlewares middlewares.length next
        fun ctx namedArg => next ctx namedArg), s1)

/-- Go `NewStmtExecContextMiddlewareChain`. -/
def NewStmtExecContextMiddlewareChain {σ : Type}
    (newMiddlewares : List (NewStmtExecContextMiddleware σ)) :
    NewStmtExecContextMiddleware σ :=
  fun query s =>
    match newChainLoop newMiddlewares query newMiddlewares.length [] s with
    | none => none
    | some (Except.error err, s1) => some (Except.error err, s1)
    | some (Except.ok middlewares, s1) =>
      some (Except.ok (fun next =>
        let next := chainLoop middlewares middlewares.length next
        fun ctx namedArg => next ctx namedArg), s1)

/-! ## ctxutil.go -/

/-- The `for n, param := range named` loop of `namedValueToValue`: `n` is the
index reached, `dargs` the slice being filled. -/
def namedValueToValueLoop : List NamedValue → Nat → List Value →
    Option (List Value) × Option Error
  | [], _, dargs => (some dargs, none)
  | param :: rest, n, dargs =>
    if param.Name.length > 0 then
      (none, some ⟨"not support the use of Named Parameters"⟩)
    else
      namedValueToValueLoop rest (n + 1) (dargs.set n param.Value)

/-- Go `namedValueToValue`; `make([]driver.Value, len(named))` is a slice of
nil values. -/
def namedValueToValue (named : List NamedValue) : Option (List Value) × Option Error :=
  namedValueToValueLoop named 0 (List.replicate named.length Value.null)

/-! ## stmt.go -/

/-- Go `Stmt.generateQueryContextFunc`. -/
def Stmt.generateQueryContextFunc {σ : Type} (stmt : Stmt σ) : StmtQueryContextFunc σ :=
  match stmt.target.QueryContext with
  | some targetQueryContext => targetQueryContext
  | none => fun _ctx _namedArg s =>
    some ((none, some ⟨"deriver not support stmt QueryContext"⟩), s)

/-- Go `Stmt.generateExecContextFunc`. -/
def Stmt.generateExecContextFunc {σ : Type} (stmt : Stmt σ) : StmtExecContextFunc σ :=
  match stmt.target.ExecContext with
  | some targetExecContext => targetExecContext
  | none => fun _ctx _namedArg s =>
    some ((none, some ⟨"driver not support stmt ExecContext"⟩), s)

/-- The step `if newStmt...Middleware != nil { mw, err := newStmt...Middleware(query);
if err != nil { return Stmt{}, err }; f = mw(f) }` of `newStmt`, which the
source writes once for the query strategy and once for the execute strategy. -/
def newStmtWrap {σ α : Type} (newMiddleware : Option (String → M σ (Except Error (α → α))))
    (query : String) (base : α) : M σ (Except Error α) :=
  fun s =>
    match newMiddleware with
    | none => some (Except.ok base, s)
    | some newMw =>
      match newMw query s with
      | none => none
      | some (Except.error err, s1) => some (Except.error err, s1)
      | some (Except.ok middleware, s1) => some (Except.ok (middleware base), s1)

/-- Go `newStmt`.  The zero statement `Stmt{}` returned next to an error
carries no handle, no connection and no strategy; it is `none` here. -/
def newStmt {σ : Type} (target : TargetStmt σ) (conn : Conn σ) (query : String)
    (newStmtQueryContextMiddleware : Option (NewStmtQueryContextMiddleware σ))
    (newStmtExecContextMiddleware : Option (NewStmtExecContextMiddleware σ)) :
    M σ (Option (Stmt σ) × Option Error) :=
  fun s =>
    let stmt : Stmt σ := ⟨target, none, none, conn, query, none, none⟩
    match newStmtWrap newStmtQueryContextMiddleware query stmt.generateQueryContextFunc s with
    | none => none
    | some (Except.error err, s1) => some ((none, some err), s1)
    | some (Except.ok queryContextFunc, s1) =>
      let stmt : Stmt σ := { stmt with queryContextFunc := some queryContextFunc }
      match newStmtWrap newStmtExecContextMiddleware query stmt.generateExecContextFunc s1 with
      | none => none
      | some (Except.error err, s2) => some ((none, some err), s2)
      | some (Except.ok execContextFunc, s2) =>
        some ((some { stmt with execContextFunc := some execContextFunc }, none), s2)

/-- Go `Stmt.Close`. -/
def Stmt.Close {σ : Type} (stmt : Stmt σ) : M σ (Option Error) :=
  stmt.target.Close

/-- Go `Stmt.QueryContext`; calling a nil strategy panics. -/
def Stmt.QueryContext {σ : Type} (stmt : Stmt σ) : StmtQueryContextFunc σ :=
  fun ctx namedArg s =>
    match stmt.queryContextFunc with
    | some queryContextFunc => queryContextFunc ctx namedArg s
    | none => none

/-- Go `Stmt.ExecContext`; calling a nil strategy panics. -/
def Stmt.ExecContext {σ : Type} (stmt : Stmt σ) : StmtExecContextFunc σ :=
  fun ctx namedArg s =>
    match stmt.execContextFunc with
    | some execContextFunc => execContextFunc ctx namedArg s
    | none => none

/-! ## conn.go -/

/-- Go `Conn.PrepareContext`.  The returned `driver.Stmt` is `none` both for
the nil interface and for the zero statement that `newStmt` returns next to an
error. -/
def Conn.PrepareContext {σ : Type} (conn : Conn σ) (ctx : Context σ) (query : String) :
    M σ (Option (Stmt σ) × Option Error) :=
  fun s =>
    match conn.target.PrepareContext with
    | some connPrepareContext =>
      match connPrepareContext ctx query s with
      | none => none
      | some (Except.error err, s1) => some ((none, some err), s1)
      | some (Except.ok stmtTarget, s1) =>
        newStmt stmtTarget conn query
          conn.driver.MiddlewareGroup.NewStmtQueryContextMiddleware
          conn.driver.MiddlewareGroup.NewStmtExecContextMiddleware s1
    | none =>
      if ctx.isDone s then
        some ((none, ctx.Err s), s)
      else
        match conn.target.Prepare query s with
        | none => none
        | some (Except.error err, s1) => some ((none, some err), s1)
        | some (Except.ok stmtTarget, s1) =>
          newStmt stmtTarget conn query
            conn.driver.MiddlewareGroup.NewStmtQueryContextMiddleware
            conn.driver.MiddlewareGroup.NewStmtExecContextMiddleware s1

/-- The closure `generateQueryContextFunc` returns for a target that is a
`driver.Queryer` only: poll the context, convert the parameters, call the
legacy query.  A nil slice handed to the legacy query is the empty slice. -/
def Conn.legacyQueryContextFunc {σ : Type}
    (queryer : String → List Value → M σ (Option Rows × Option Error)) :
    QueryContextFunc σ :=
  fun ctx query namedArg s =>
    if ctx.isDone s then
      some ((none, ctx.Err s), s)
    else
      match namedValueToValue namedArg with
      | (_, some err) => some ((none, some err), s)
      | (arg, none) => queryer query (arg.getD []) s

/-- The closure `generateQueryContextFunc` returns for a target with no
query capability: prepare, `defer stmt.Close()`, delegate to the statement
adapter.  The deferred close runs after the query and its result is dropped. -/
def Conn.prepareQueryContextFunc {σ : Type} (conn : Conn σ) : QueryContextFunc σ :=
  fun ctx query namedArg s =>
    match conn.PrepareContext ctx query s with
    | none => none
    | some ((_, some err), s1) => some ((none, some err), s1)
    | some ((none, none), _) => none
    | some ((some stmt, none), s1) =>
      match stmt.QueryContext ctx namedArg s1 with
      | none => none
      | some (r, s2) =>
        match stmt.Close s2 with
        | none => none
        | some (_, s3) => some (r, s3)

/-- Go `Conn.generateQueryContextFunc`. -/
def Conn.generateQueryContextFunc {σ : Type} (conn : Conn σ) : QueryContextFunc σ :=
  match conn.target.QueryContext with
  | some targetQueryerContext => targetQueryerContext
  | none =>
    match conn.target.Query with
    | some queryer => Conn.legacyQueryContextFunc queryer
    | none => Conn.prepareQueryContextFunc conn

/-- The closure `generateExecContextFunc` returns for a target that is a
`driver.Execer` only. -/
def Conn.legacyExecContextFunc {σ : Type}
    (execer : String → List Value → M σ (Option Result × Option Error)) :
    ExecContextFunc σ :=
  fun ctx query namedArg s =>
    if ctx.isDone s then
      some ((none, ctx.Err s), s)
    else
      match namedValueToValue namedArg with
      | (_, some err) => some ((none, some err), s)
      | (arg, none) => execer query (arg.getD []) s

/-- The closure `generateExecContextFunc` returns for a target with no
execute capability. -/
def Conn.prepareExecContextFunc {σ : Type} (conn : Conn σ) : ExecContextFunc σ :=
  fun ctx query namedArg s =>
    match conn.PrepareContext ctx query s with
    | none => none
    | some ((_, some err), s1) => some ((none, some err), s1)
    | some ((none, none), _) => none
    | some ((some stmt, none), s1) =>
      match stmt.ExecContext ctx namedArg s1 with
      | none => none
      | some (r, s2) =>
        match stmt.Close s2 with
        | none => none
        | some (_, s3) => some (r, s3)

/-- Go `Conn.generateExecContextFunc`. -/
def Conn.generateExecContextFunc {σ : Type} (conn : Conn σ) : ExecContextFunc σ :=
  match conn.target.ExecContext with
  | some execerConntext => execerConntext
  | none =>
    match conn.target.Exec with
    | some execer => Conn.legacyExecContextFunc execer
    | none => Conn.prepareExecContextFunc conn

/-- Go `newConn`. -/
def newConn {σ : Type} (target : TargetConn σ) (dri : Driver σ)
    (queryContextMiddleware : Option (QueryContextMiddleware σ))
    (execContextMiddleware : Option (ExecContextMiddleware σ)) : Conn σ :=
  let conn : Conn σ := ⟨dri, target, none, none⟩
  let queryContextFunc := conn.generateQueryContextFunc
  let queryContextFunc :=
    match queryContextMiddleware with
    | some middleware => middleware queryContextFunc
    | none => queryContextFunc
  let conn : Conn σ := { conn with queryContextFunc := some queryContextFunc }
  let execContextFunc := conn.generateExecContextFunc
  let execContextFunc :=
    match execContextMiddleware with
    | some middleware => middleware execContextFunc
    | none => execContextFunc
  { conn with execContextFunc := some execContextFunc }

/-- Go `Conn.QueryContext`; calling a nil strategy panics. -/
def Conn.QueryContext {σ : Type} (conn : Conn σ) : QueryContextFunc σ :=
  fun ctx query namedArg s =>
    match conn.queryContextFunc with
    | some queryContextFunc => queryContextFunc ctx query namedArg s
    | none => none

/-- Go `Conn.ExecContext`; calling a nil strategy panics. -/
def Conn.ExecContext {σ : Type} (conn : Conn σ) : ExecContextFunc σ :=
  fun ctx query namedArg s =>
    match conn.execContextFunc with
    | some execContextFunc => execContextFunc ctx query namedArg s
    | none => none

/-- Go `Conn.BeginTx`.  `driver.IsolationLevel(int(sql.LevelDefault))` is 0.
Without the native capability the legacy `Begin` is called first and the
context is polled afterwards, at the state the begin has left; `ctx.Err()` is
read after the rollback.  Calling `Rollback` on a nil transaction panics. -/
def Conn.BeginTx {σ : Type} (conn : Conn σ) (ctx : Context σ) (opts : TxOptions) :
    M σ (Option (Tx σ) × Option Error) :=
  fun s =>
    match conn.target.BeginTx with
    | some connBeginTx => connBeginTx ctx opts s
    | none =>
      if opts.Isolation ≠ 0 then
        some ((none, some ⟨"not support non-default isolation level"⟩), s)
      else if opts.ReadOnly then
        some ((none, some ⟨"not support read-only transactions"⟩), s)
      else
        match conn.target.Begin s with
        | none => none
        | some ((txTarget, err), s1) =>
          match ctx.Done with
          | none => some ((txTarget, err), s1)
          | some closed =>
            match err with
            | some _ => some ((txTarget, err), s1)
            | none =>
              if closed s1 then
                match txTarget with
                | none => none
                | some tx =>
                  match tx.Rollback s1 with
                  | none => none
                  | some (_, s2) => some ((none, ctx.Err s2), s2)
              else
                some ((txTarget, err), s1)

/-! ## conn.go and stmt.go: the remaining methods -/

/-- Go `Conn.Ping`.  The emulation hands the composite literal
`[]driver.NamedValue{{Value: 1}}` to `conn.QueryContext`: the fields `Name` and
`Ordinal` are left at their zero values and `Value` holds the Go `int` 1.  The
rows of the query are dropped. -/
def Conn.Ping {σ : Type} (conn : Conn σ) (ctx : Context σ) : M σ (Option Error) :=
  fun s =>
    match conn.target.Ping with
    | some pinger => pinger ctx s
    | none =>
      match conn.QueryContext ctx "SELECT ?" [⟨"", 0, Value.int 1⟩] s with
      | none => none
      | some ((_, err), s1) => some (err, s1)

/-- Go `Conn.Prepare`. -/
def Conn.Prepare {σ : Type} (_conn : Conn σ) (_query : String) :
    M σ (Option (Stmt σ) × Option Error) :=
  fun s => some ((none, some ⟨"Please update Go to 1.8+ version"⟩), s)

/-- Go `Conn.Begin`. -/
def Conn.Begin {σ : Type} (_conn : Conn σ) : M σ (Option (Tx σ) × Option Error) :=
  fun s => some ((none, some ⟨"Please update Go to 1.8+ version"⟩), s)

/-- Go `Stmt.Query`. -/
def Stmt.Query {σ : Type} (_stmt : Stmt σ) (_args : List Value) :
    M σ (Option Rows × Option Error) :=
  fun s => some ((none, some ⟨"Please update Go to 1.8+ version"⟩), s)

/-- Go `Stmt.Exec`. -/
def Stmt.Exec {σ : Type} (_stmt : Stmt σ) (_args : List Value) :
    M σ (Option Result × Option Error) :=
  fun s => some ((none, some ⟨"Please update Go to 1.8+ version"⟩), s)

/-- Go `defaultNamedValueChecker.CheckNamedValue`.  The checker works on a
pointer: the parameter as it is after the call is returned with the error.
`driver.DefaultParameterConverter` belongs to the Go standard library, not to
this package; its `ConvertValue` is the parameter `convertValue` (a nil value
is `Value.null`). -/
def defaultNamedValueChecker {σ : Type} (convertValue : Value → Value × Option Error)
    (nv : NamedValue) : M σ (NamedValue × Option Error) :=
  fun s =>
    match convertValue nv.Value with
    | (value, err) => some (({ nv with Value := value }, err), s)

/-- Go `Stmt.CheckNamedValue`. -/
def Stmt.CheckNamedValue {σ : Type} (convertValue : Value → Value × Option Error)
    (stmt : Stmt σ) (nv : NamedValue) : M σ (NamedValue × Option Error) :=
  match stmt.target.CheckNamedValue with
  | some checker => checker nv
  | none =>
    match stmt.conn.target.CheckNamedValue with
    | some checker => checker nv
    | none => defaultNamedValueChecker convertValue nv

/-! ## driver.go, connector.go -/

/-- Go `Connector` (connector.go); `target` is nil when the wrapped driver
has no connector-based opening. -/
structure Connector (σ : Type) where
  name : String
  driver : Driver σ
  target : Option (TargetConnector σ)

/-- Go `Driver.OpenConnector`.  Both struct literals of the source,
`Connector{driver: dri, target: conntor}` and `Connector{driver: dri}`, leave
the field `name` at its zero value, the empty string. -/
def Driver.OpenConnector {σ : Type} (dri : Driver σ) (name : String) :
    M σ (Option (Connector σ) × Option Error) :=
  fun s =>
    match dri.Target.OpenConnector with
    | some openConnector =>
      match openConnector name s with
      | none => none
      | some (Except.error err, s1) => some ((none, some err), s1)
      | some (Except.ok conntor, s1) => some ((some ⟨"", dri, some conntor⟩, none), s1)
    | none => some ((some ⟨"", dri, none⟩, none), s)

/-- Go `Connector.Connect`. -/
def Connector.Connect {σ : Type} (connector : Connector σ) (ctx : Context σ) :
    M σ (Option (Conn σ) × Option Error) :=
  fun s =>
    match connector.target with
    | some target =>
      match target.Connect ctx s with
      | none => none
      | some (Except.error err, s1) => some ((none, some err), s1)
      | some (Except.ok connTarget, s1) =>
        some ((some (newConn connTarget connector.driver
          connector.driver.MiddlewareGroup.QueryContextMiddleware
          connector.driver.MiddlewareGroup.ExecContextMiddleware), none), s1)
    | none =>
      if ctx.isDone s then
        some ((none, ctx.Err s), s)
      else
        match connector.driver.Target.Open connector.name s with
        | none => none
        | some (Except.error err, s1) => some ((none, some err), s1)
        | some (Except.ok connTarget, s1) =>
          some ((some (newConn connTarget connector.driver
            connector.driver.MiddlewareGroup.QueryContextMiddleware
            connector.driver.MiddlewareGroup.ExecContextMiddleware), none), s1)

/-! ## The three-tier fallback as the specification words it

Section 4.1 of the specification describes the context-query fallback and
says of context-execute that it is symmetric, with the same three tiers.  The
definitions below write that fallback once, for an arbitrary operation, to be
compared with the two strategies of conn.go. -/

/-- Second tier, for any legacy operation: check for cancellation, reject
named parameters, convert the parameters to positional values, call the legacy
function. -/
def specLegacyTier {σ ρ : Type}
    (legacyOp : String → List Value → M σ (Option ρ × Option Error)) :
    Context σ → String → List NamedValue → M σ (Option ρ × Option Error) :=
  fun ctx query namedArg s =>
    if ctx.isDone s then
      some ((none, ctx.Err s), s)
    else
      match namedValueToValue namedArg with
      | (_, some err) => some ((none, some err), s)
      | (arg, none) => legacyOp query (arg.getD []) s

/-- Third tier, for any statement operation: prepare the query as a
statement, delegate to the operation of the statement, close the statement
afterwards whatever the outcome. -/
def specPrepareTier {σ ρ : Type} (conn : Conn σ)
    (stmtOp : Stmt σ → Context σ → List NamedValue → M σ (Option ρ × Option Error)) :
    Context σ → String → List NamedValue → M σ (Option ρ × Option Error) :=
  fun ctx query namedArg s =>
    match conn.PrepareContext ctx query s with
    | none => none
    | some ((_, some err), s1) => some ((none, some err), s1)
    | some ((none, none), _) => none
    | some ((some stmt, none), s1) =>
      match stmtOp stmt ctx namedArg s1 with
      | none => none
      | some (r, s2) =>
        match stmt.Close s2 with
        | none => none
        | some (_, s3) => some (r, s3)

/-- The three-tier fallback: the native implementation if there is one, else
the legacy tier if there is a legacy operation, else the prepare tier. -/
def specThreeTierFallback {σ ρ : Type} (conn : Conn σ)
    (native : Option (Context σ → String → List NamedValue → M σ (Option ρ × Option Error)))
    (legacy : Option (String → List Value → M σ (Option ρ × Option Error)))
    (stmtOp : Stmt σ → Context σ → List NamedValue → M σ (Option ρ × Option Error)) :
    Context σ → String → List NamedValue → M σ (Option ρ × Option Error) :=
  match native with
  | some nativeOp => nativeOp
  | none =>
    match legacy with
    | some legacyOp => specLegacyTier legacyOp
    | none => specPrepareTier conn stmtOp

/-! ## conn.go: `newConn` when applying a middleware is a call of its own

In Go the application `queryContextMiddleware(conn.queryContextFunc)` is
itself a call: it may touch the world before it returns the wrapped
interceptor.  The definition below is `newConn` again, line for line, with the
two applications as calls, so that the moment at which a middleware is applied
and the number of times it is applied can be observed. -/

/-- Go `newConn`, with the application of each middleware as a call on the
world: the strategies are resolved, each configured middleware is applied to
its strategy, and the function that application returns is stored. -/
def newConnM {σ : Type} (target : TargetConn σ) (dri : Driver σ)
    (queryContextMiddleware : Option (QueryContextFunc σ → M σ (QueryContextFunc σ)))
    (execContextMiddleware : Option (ExecContextFunc σ → M σ (ExecContextFunc σ))) :
    M σ (Conn σ) :=
  fun s =>
    let conn : Conn σ := ⟨dri, target, none, none⟩
    let queryContextFunc := conn.generateQueryContextFunc
    match (match queryContextMiddleware with
      | some middleware => middleware queryContextFunc s
      | none => some (queryContextFunc, s)) with
    | none => none
    | some (queryContextFunc, s1) =>
      let conn : Conn σ := { conn with queryContextFunc := some queryContextFunc }
      let execContextFunc := conn.generateExecContextFunc
      match (match execContextMiddleware with
        | some middleware => middleware execContextFunc s1
        | none => some (execContextFunc, s1)) with
      | none => none
      | some (execContextFunc, s2) =>
        some ({ conn with execContextFunc := some execContextFunc }, s2)

/-! ## Probes used to observe calls

The world state of the examples is a call log; a probe is a statement
factory that records its position and the query text it was called with. -/

/-- A call log: position of the factory called and the query text it got. -/
abbrev Log : Type := List (Nat × String)

/-- A statement factory registered at position `i` that returns `out` and
records the call. -/
def probe {α : Type} (i : Nat) (out : Except Error α) : String → M Log (Except Error α) :=
  fun query log => some (out, log ++ [(i, query)])

/-- The effect of one call of the probe at position `i` on the log. -/
def probeEffect (i : Nat) (query : String) : Log → Log :=
  fun log => log ++ [(i, query)]

/-- The middleware of `test_conn_querycontext_name_middleware_error`
(conn_test.go): it ignores `next` and returns a fixed error. -/
def shortCircuitQuery {σ : Type} (e : Error) : QueryContextMiddleware σ :=
  fun _next _ctx _query _namedArg s => some ((none, some e), s)

/-- The execute counterpart of `shortCircuitQuery` (conn_test.go,
`test_conn_execcontext_name_middleware_error`). -/
def shortCircuitExec {σ : Type} (e : Error) : ExecContextMiddleware σ :=
  fun _next _ctx _query _namedArg s => some ((none, some e), s)

/-- The first middleware of `test_stmt_querycontext_name_middleware_chain`
(stmt_test.go): every parameter is given the name `age`, then `next` runs. -/
def nameAge {σ : Type} : StmtQueryContextMiddleware σ :=
  fun next ctx namedArg => next ctx (namedArg.map (fun arg => { arg with Name := "age" }))

/-- The same renaming as a connection query middleware
(`test_conn_querycontext_name_middleware_chain`, conn_test.go). -/
def nameAgeQuery {σ : Type} : QueryContextMiddleware σ :=
  fun next ctx query namedArg =>
    next ctx query (namedArg.map (fun arg => { arg with Name := "age" }))

/-- The query text of the statement tests (stmt_test.go). -/
def sampleQuery : String := "SELECT name FROM users WHERE age=?"

/-- Two probes that succeed, with the middleware each yields and the effect
of its call on the log. -/
def sampleQueryCalls :
    List (NewStmtQueryContextMiddleware Log × StmtQueryContextMiddleware Log × (Log → Log)) :=
  [(probe 0 (Except.ok nameAge), nameAge, probeEffect 0 sampleQuery),
   (probe 1 (Except.ok (fun next => next)), fun next => next, probeEffect 1 sampleQuery)]

/-- One probe that succeeds, for the execute chain. -/
def sampleExecCalls :
    List (NewStmtExecContextMiddleware Log × StmtExecContextMiddleware Log × (Log → Log)) :=
  [(probe 0 (Except.ok (fun next => next)), fun next => next, probeEffect 0 sampleQuery)]

/-- A wrapped connection with the mandatory methods only; it cannot
prepare or begin anything. -/
def bareConn : TargetConn Log :=
  { Prepare := fun _query log => some (Except.error ⟨"prepare refused"⟩, log)
    Close := fun log => some (none, log)
    Begin := fun log => some ((none, some ⟨"begin refused"⟩), log)
    QueryContext := none
    Query := none
    ExecContext := none
    Exec := none
    PrepareContext := none
    BeginTx := none
    Ping := none
    CheckNamedValue := none }

/-- A native context-aware query that records the call at position 0 and
answers with the names and values it was given. -/
def echoQueryContext : QueryContextFunc Log :=
  fun _ctx query namedArg log =>
    some ((some ⟨namedArg.map (fun arg => arg.Name), [namedArg.map (fun arg => arg.Value)]⟩,
      none), log ++ [(0, query)])

/-- A legacy query that records the call at position 1 and answers with
the values it was given. -/
def echoQuery : String → List Value → M Log (Option Rows × Option Error) :=
  fun query args log => some ((some ⟨[], [args]⟩, none), log ++ [(1, query)])

/-- A driver with no middleware configured, over a wrapped driver that
cannot open anything. -/
def bareDriver : Driver Log :=
  { Target := { Open := fun _name log => some (Except.error ⟨"open refused"⟩, log)
                OpenConnector := none }
    MiddlewareGroup := ⟨none, none, none, none⟩ }

/-- Go `context.Background()`: never cancelled. -/
def background {σ : Type} : Context σ := ⟨none, fun _ => none⟩

/-- A context that is already cancelled in every state. -/
def cancelled {σ : Type} : Context σ :=
  ⟨some (fun _ => true), fun _ => some ⟨"context canceled"⟩⟩

/-- A wrapped statement with both context-aware capabilities; every call
is recorded: 3 for the query, 4 for the close, 5 for the execute. -/
def loggingStmt : TargetStmt Log :=
  { Close := fun log => some (none, log ++ [(4, "close")])
    NumInput := fun log => some (1, log)
    Exec := fun _args log => some ((none, some ⟨"legacy exec refused"⟩), log)
    Query := fun _args log => some ((none, some ⟨"legacy query refused"⟩), log)
    QueryContext := some (fun _ctx namedArg log =>
      some ((some ⟨["name"], [namedArg.map (fun arg => arg.Value)]⟩, none),
        log ++ [(3, "stmt query")]))
    ExecContext := some (fun _ctx _namedArg log =>
      some ((some ⟨0, 1⟩, none), log ++ [(5, "stmt exec")]))
    CheckNamedValue := none }

/-- A wrapped statement without the context-aware capabilities. -/
def plainStmt : TargetStmt Log :=
  { loggingStmt with QueryContext := none, ExecContext := none }

/-- A wrapped connection with the legacy prepare only; the call is recorded
at position 2 with the query text. -/
def preparingConn : TargetConn Log :=
  { bareConn with
    Prepare := fun query log => some (Except.ok loggingStmt, log ++ [(2, query)]) }

/-- A wrapped transaction; the rollback is recorded at position 7 and
reports an error of its own. -/
def loggingTx : Tx Log :=
  { Commit := fun log => some (none, log ++ [(6, "commit")])
    Rollback := fun log => some (some ⟨"rollback failed"⟩, log ++ [(7, "rollback")]) }

/-- A wrapped connection whose legacy begin succeeds; the call is recorded
at position 8. -/
def beginningConn : TargetConn Log :=
  { bareConn with
    Begin := fun log => some ((some loggingTx, none), log ++ [(8, "begin")]) }

/-- A context that is cancelled as soon as the legacy begin has run. -/
def cancelledAfterBegin : Context Log :=
  ⟨some (fun log => log.contains (8, "begin")), fun _ => some ⟨"context canceled"⟩⟩

/-- A driver without connector-based opening whose by-name open records
the name it is given at position 9. -/
def namedOpenDriver : Driver Log :=
  { Target := { Open := fun name log => some (Except.ok bareConn, log ++ [(9, name)])
                OpenConnector := none }
    MiddlewareGroup := ⟨none, none, none, none⟩ }

/-- A legacy execute that records the call at position 1 and reports one
affected row. -/
def echoExec : String → List Value → M Log (Option Result × Option Error) :=
  fun query _args log => some ((some ⟨0, 1⟩, none), log ++ [(1, query)])

/-- The configuration of `test_stmt_querycontext_name_middleware_prepare_error`
(stmt_test.go): the statement query factory returns the error `test`; the call
is recorded at position 0. -/
def failingQueryFactoryDriver : Driver Log :=
  { Target := bareDriver.Target
    MiddlewareGroup := ⟨none, none, none, some (probe 0 (Except.error ⟨"test"⟩))⟩ }

/-- The configuration of `test_stmt_execcontext_name_middleware_prepare_error`
(stmt_test.go): the statement execute factory returns the error `test`; the
call is recorded at position 1. -/
def failingExecFactoryDriver : Driver Log :=
  { Target := bareDriver.Target
    MiddlewareGroup := ⟨none, none, some (probe 1 (Except.error ⟨"test"⟩)), none⟩ }

/-- A native context-aware query that records, for every parameter it is
given, the ordinal and the name of the parameter. -/
def ordinalRecordingQueryContext : QueryContextFunc Log :=
  fun _ctx _query namedArg log =>
    some ((some ⟨[""], [namedArg.map (fun arg => arg.Value)]⟩, none),
      log ++ namedArg.map (fun arg => (arg.Ordinal.toNat, arg.Name)))

/-- A native ping that records the call at position 12. -/
def loggingPing : Context Log → M Log (Option Error) :=
  fun _ctx log => some (none, log ++ [(12, "ping")])

/-- A native context-begin that records the call at position 13 and hands
out a transaction whatever the options are. -/
def loggingBeginTx : Context Log → TxOptions → M Log (Option (Tx Log) × Option Error) :=
  fun _ctx _opts log => some ((some loggingTx, none), log ++ [(13, "begin tx")])

/-- The checker of a statement handle: it records the call at position 10
and names the parameter `stmt`. -/
def stmtChecker : NamedValue → M Log (NamedValue × Option Error) :=
  fun nv log => some (({ nv with Name := "stmt" }, none), log ++ [(10, "stmt checker")])

/-- The checker of a connection handle: it records the call at position 11
and names the parameter `conn`. -/
def connChecker : NamedValue → M Log (NamedValue × Option Error) :=
  fun nv log => some (({ nv with Name := "conn" }, none), log ++ [(11, "conn checker")])

/-- A stand-in for `driver.DefaultParameterConverter.ConvertValue`: a plain
Go `int` becomes an `int64`, every other value is returned as it is. -/
def sampleConvertValue : Value → Value × Option Error
  | Value.int i => (Value.int64 i, none)
  | value => (value, none)

/-- A wrapped connection whose native context-prepare refuses; the call is
recorded at position 2. -/
def refusingPrepareConn : TargetConn Log :=
  { bareConn with
    PrepareContext := some (fun _ctx query log =>
      some (Except.error ⟨"syntax error"⟩, log ++ [(2, query)])) }

/-- A configuration with both statement factories, recorded at positions 0
(query factory, the renaming middleware) and 1 (execute factory). -/
def bothFactoriesDriver : Driver Log :=
  { Target := bareDriver.Target
    MiddlewareGroup := ⟨none, none, some (probe 1 (Except.ok (fun next => next))),
      some (probe 0 (Except.ok nameAge))⟩ }

/-- A connection query middleware whose application is recorded at
position 14; the wrapper it returns renames every parameter. -/
def countingQueryMiddleware : QueryContextFunc Log → M Log (QueryContextFunc Log) :=
  fun next log => some (nameAgeQuery next, log ++ [(14, "wrap query")])

/-- A connection execute middleware whose application is recorded at
position 16; the wrapper it returns is the strategy it was given. -/
def countingExecMiddleware : ExecContextFunc Log → M Log (ExecContextFunc Log) :=
  fun next log => some (next, log ++ [(16, "wrap exec")])

/-- A statement execute middleware that records every call at position 15
before it hands the call on. -/
def loggingExecMiddleware : StmtExecContextMiddleware Log :=
  fun next ctx namedArg log => next ctx namedArg (log ++ [(15, "exec middleware")])

/-- A configuration whose two statement factories both fail, the query
factory (position 0) with `query factory failed`, the execute factory
(position 1) with `exec factory failed`. -/
def bothFailingFactoriesDriver : Driver Log :=
  { Target := bareDriver.Target
    MiddlewareGroup := ⟨none, none, some (probe 1 (Except.error ⟨"exec factory failed"⟩)),
      some (probe 0 (Except.error ⟨"query factory failed"⟩))⟩ }

/-- A native context-aware statement query that records the call at
position 3 and answers with the names and values it was given. -/
def echoStmtQuery : StmtQueryContextFunc Log :=
  fun _ctx namedArg log =>
    some ((some ⟨namedArg.map (fun arg => arg.Name), [namedArg.map (fun arg => arg.Value)]⟩,
      none), log ++ [(3, "stmt query")])

/-- A native context-aware statement execute that records the call at
position 5 and reports as many affected rows as it was given parameters. -/
def echoStmtExec : StmtExecContextFunc Log :=
  fun _ctx namedArg log => some ((some ⟨0, namedArg.length⟩, none), log ++ [(5, "stmt exec")])

/-- A wrapped statement whose two context-aware capabilities are
`echoStmtQuery` and `echoStmtExec`. -/
def echoStmt : TargetStmt Log :=
  { loggingStmt with QueryContext := some echoStmtQuery, ExecContext := some echoStmtExec }

/-! ## Chain builders: the loops as folds -/

theorem chainLoop_take {α : Type} (middlewares : List (α → α)) :
    ∀ (k : Nat) (next : α), k ≤ middlewares.length →
      chainLoop middlewares k next
        = (middlewares.take k).foldr (fun middleware acc => middleware acc) next := by
  intro k
  induction k with
  | zero => intro next _; simp [chainLoop]
  | succ k ih =>
    intro next hk
    have hlt : k < middlewares.length := hk
    rw [chainLoop, List.getElem?_eq_getElem hlt]
    simp only
    rw [ih _ (Nat.le_of_lt hlt), List.take_succ, List.getElem?_eq_getElem hlt,
      Option.toList, List.foldr_append]
    rfl

theorem chainLoop_eq_foldr {α : Type} (middlewares : List (α → α)) (next : α) :
    chainLoop middlewares middlewares.length next
      = middlewares.foldr (fun middleware acc => middleware acc) next := by
  rw [chainLoop_take middlewares _ next (Nat.le_refl _), List.take_length]

theorem newChainLoop_append_left {σ α : Type}
    (pre suf : List (String → M σ (Except Error α))) (query : String) :
    ∀ (k : Nat), k ≤ pre.length → ∀ (acc : List α) (s : σ),
      newChainLoop (pre ++ suf) query k acc s = newChainLoop pre query k acc s := by
  intro k
  induction k with
  | zero => intro _ acc s; simp [newChainLoop]
  | succ k ih =>
    intro hk acc s
    have hlt : k < pre.length := hk
    have hle : k ≤ pre.length := Nat.le_of_lt hlt
    rw [newChainLoop, newChainLoop, List.getElem?_append_left hlt,
      List.getElem?_eq_getElem hlt]
    simp only
    cases hcall : pre[k] query s with
    | none => rfl
    | some r =>
      obtain ⟨out, s1⟩ := r
      cases out with
      | error err => rfl
      | ok middleware => exact ih hle _ _

/-- One turn of the construction loop: the factory registered last is the
one called first. -/
theorem newChainLoop_concat {σ α : Type}
    (pre : List (String → M σ (Except Error α))) (f : String → M σ (Except Error α))
    (query : String) (acc : List α) (s : σ) :
    newChainLoop (pre ++ [f]) query (pre ++ [f]).length acc s
      = match f query s with
        | none => none
        | some (Except.error err, s1) => some (Except.error err, s1)
        | some (Except.ok middleware, s1) =>
          newChainLoop pre query pre.length (middleware :: acc) s1 := by
  have hlen : (pre ++ [f]).length = pre.length + 1 := by simp
  have hget : (pre ++ [f])[pre.length]? = some f := by simp
  rw [hlen, newChainLoop, hget]
  simp only
  cases hcall : f query s with
  | none => rfl
  | some r =>
    obtain ⟨out, s1⟩ := r
    cases out with
    | error err => rfl
    | ok middleware =>
      exact newChainLoop_append_left pre [f] query pre.length (Nat.le_refl _) _ _

/-- A run of factories that all succeed on the query: they are called from
the last to the first, each once, and their middlewares are collected in
registration order. -/
theorem newChainLoop_all_ok {σ α : Type} (query : String)
    (calls : List ((String → M σ (Except Error α)) × α × (σ → σ)))
    (hcalls : ∀ c ∈ calls, ∀ s, c.1 query s = some (Except.ok c.2.1, c.2.2 s)) :
    ∀ (pre : List (String → M σ (Except Error α))) (acc : List α) (s : σ),
      newChainLoop (pre ++ calls.map (fun c => c.1)) query
          (pre ++ calls.map (fun c => c.1)).length acc s
        = newChainLoop pre query pre.length (calls.map (fun c => c.2.1) ++ acc)
            ((calls.map (fun c => c.2.2)).foldr (fun eff t => eff t) s) := by
  induction calls using List.reverseRecOn with
  | nil => intro pre acc s; simp
  | append_singleton cs c ih =>
    intro pre acc s
    have hc : ∀ t, c.1 query t = some (Except.ok c.2.1, c.2.2 t) :=
      hcalls c (by simp)
    have hcs : ∀ d ∈ cs, ∀ t, d.1 query t = some (Except.ok d.2.1, d.2.2 t) :=
      fun d hd => hcalls d (by simp [hd])
    have hsplit : pre ++ (cs ++ [c]).map (fun c => c.1)
        = (pre ++ cs.map (fun c => c.1)) ++ [c.1] := by simp
    rw [hsplit, newChainLoop_concat, hc s]
    simp only
    rw [ih hcs pre (c.2.1 :: acc) (c.2.2 s)]
    simp [List.foldr_append]

/-- The construction loop stops at the failing factory that is registered
last: the factories after it have succeeded, the ones before it are not
reached. -/
theorem newChainLoop_last_error {σ α : Type} (query : String) (e : Error)
    (pre : List (String → M σ (Except Error α))) (f : String → M σ (Except Error α))
    (hf : ∀ s, ∃ s1, f query s = some (Except.error e, s1))
    (post : List (String → M σ (Except Error α)))
    (hpost : ∀ g ∈ post, ∀ s, ∃ m s1, g query s = some (Except.ok m, s1)) :
    ∀ (acc : List α) (s : σ), ∃ s1,
      newChainLoop (pre ++ [f] ++ post) query (pre ++ [f] ++ post).length acc s
        = some (Except.error e, s1) := by
  induction post using List.reverseRecOn with
  | nil =>
    intro acc s
    obtain ⟨s1, h1⟩ := hf s
    refine ⟨s1, ?_⟩
    rw [List.append_nil, newChainLoop_concat, h1]
  | append_singleton ps g ih =>
    intro acc s
    obtain ⟨m, s1, h1⟩ := hpost g (by simp) s
    have hps : ∀ g ∈ ps, ∀ s, ∃ m s1, g query s = some (Except.ok m, s1) :=
      fun g hg => hpost g (by simp [hg])
    obtain ⟨s2, h2⟩ := ih hps (m :: acc) s1
    refine ⟨s2, ?_⟩
    rw [← List.append_assoc, newChainLoop_concat, h1]
    exact h2

theorem foldr_short_circuit {α : Type} (pre post : List (α → α)) (c f : α) :
    (pre ++ [(fun _ => c : α → α)] ++ post).foldr (fun m next => m next) f
      = pre.foldr (fun m next => m next) c := by
  simp [List.foldr_append]

theorem foldr_pass_through {α : Type} (pre : List (α → α)) (c : α)
    (hpre : ∀ m ∈ pre, ∀ next, m next = next) :
    pre.foldr (fun m next => m next) c = c := by
  induction pre with
  | nil => rfl
  | cons m ms ih =>
    rw [List.foldr_cons, ih (fun m hm => hpre m (by simp [hm]))]
    exact hpre m (by simp) c

/-! ## Value conversion -/

theorem name_length_pos_iff (name : String) : name.length > 0 ↔ name ≠ "" := by
  constructor
  · intro h hs
    subst hs
    simp at h
  · intro h
    rcases Nat.eq_zero_or_pos name.length with h0 | h0
    · exfalso
      apply h
      have hdata : name.data = [] := List.length_eq_zero.mp h0
      exact String.ext hdata
    · exact h0

theorem take_succ_set {α : Type} (l : List α) (n : Nat) (v : α) (h : n < l.length) :
    (l.set n v).take (n + 1) = l.take n ++ [v] := by
  induction l generalizing n with
  | nil => simp at h
  | cons a as ih =>
    cases n with
    | zero => simp
    | succ n =>
      simp only [List.length_cons, Nat.add_lt_add_iff_right] at h
      simp [ih n h]

theorem namedValueToValueLoop_unnamed :
    ∀ (named : List NamedValue) (n : Nat) (dargs : List Value),
      dargs.length = n + named.length → (∀ p ∈ named, p.Name = "") →
      namedValueToValueLoop named n dargs
        = (some (dargs.take n ++ named.map (fun p => p.Value)), none) := by
  intro named
  induction named with
  | nil =>
    intro n dargs hlen _
    simp only [List.length_nil, Nat.add_zero] at hlen
    simp [namedValueToValueLoop, ← hlen]
  | cons p rest ih =>
    intro n dargs hlen hnames
    have hp : ¬ p.Name.length > 0 := by
      rw [name_length_pos_iff]
      exact not_not.mpr (hnames p (by simp))
    have hn : n < dargs.length := by
      rw [hlen, List.length_cons]
      omega
    rw [namedValueToValueLoop, if_neg hp,
      ih (n + 1) (dargs.set n p.Value) (by rw [List.length_set, hlen, List.length_cons]; omega)
        (fun q hq => hnames q (by simp [hq])),
      take_succ_set dargs n p.Value hn]
    simp

theorem namedValueToValueLoop_named :
    ∀ (named : List NamedValue) (n : Nat) (dargs : List Value),
      (∃ p ∈ named, p.Name ≠ "") →
      namedValueToValueLoop named n dargs
        = (none, some ⟨"not support the use of Named Parameters"⟩) := by
  intro named
  induction named with
  | nil =>
    intro n dargs h
    obtain ⟨p, hp, _⟩ := h
    simp at hp
  | cons p rest ih =>
    intro n dargs h
    rw [namedValueToValueLoop]
    by_cases hp : p.Name.length > 0
    · rw [if_pos hp]
    · rw [if_neg hp]
      apply ih
      obtain ⟨q, hq, hname⟩ := h
      rcases List.mem_cons.mp hq with rfl | hmem
      · exact absurd ((name_length_pos_iff _).mpr hname) hp
      · exact ⟨q, hmem, hname⟩

theorem namedValueToValue_unnamed (named : List NamedValue)
    (h : ∀ p ∈ named, p.Name = "") :
    namedValueToValue named = (some (named.map (fun p => p.Value)), none) := by
  rw [namedValueToValue, namedValueToValueLoop_unnamed named 0 _ (by simp) h]
  simp

theorem namedValueToValue_named (named : List NamedValue)
    (h : ∃ p ∈ named, p.Name ≠ "") :
    namedValueToValue named = (none, some ⟨"not support the use of Named Parameters"⟩) :=
  namedValueToValueLoop_named named 0 _ h

/-! ## Strategies do not depend on the strategy fields of the connection -/

theorem newStmt_conn {σ : Type} (target : TargetStmt σ) (conn conn2 : Conn σ) (query : String)
    (nq : Option (NewStmtQueryContextMiddleware σ))
    (ne : Option (NewStmtExecContextMiddleware σ)) (s : σ) :
    newStmt target conn query nq ne s
      = (newStmt target conn2 query nq ne s).map
          (fun r => ((r.1.1.map (fun stmt => { stmt with conn := conn }), r.1.2), r.2)) := by
  simp only [newStmt]
  have hq : Stmt.generateQueryContextFunc ⟨target, none, none, conn, query, none, none⟩
      = Stmt.generateQueryContextFunc ⟨target, none, none, conn2, query, none, none⟩ := rfl
  rw [hq]
  cases newStmtWrap nq query
      (Stmt.generateQueryContextFunc ⟨target, none, none, conn2, query, none, none⟩) s with
  | none => rfl
  | some r =>
    obtain ⟨out, s1⟩ := r
    cases out with
    | error err => rfl
    | ok qf =>
      simp only
      have he : Stmt.generateExecContextFunc ⟨target, none, none, conn, query, some qf, none⟩
          = Stmt.generateExecContextFunc ⟨target, none, none, conn2, query, some qf, none⟩ :=
        rfl
      rw [he]
      cases newStmtWrap ne query
          (Stmt.generateExecContextFunc ⟨target, none, none, conn2, query, some qf, none⟩)
          s1 with
      | none => rfl
      | some r2 =>
        obtain ⟨out2, s2⟩ := r2
        cases out2 with
        | error err => rfl
        | ok ef => rfl

theorem PrepareContext_conn {σ : Type} (dri : Driver σ) (target : TargetConn σ)
    (q0 q1 : Option (QueryContextFunc σ)) (e0 e1 : Option (ExecContextFunc σ))
    (ctx : Context σ) (query : String) (s : σ) :
    Conn.PrepareContext ⟨dri, target, q0, e0⟩ ctx query s
      = (Conn.PrepareContext ⟨dri, target, q1, e1⟩ ctx query s).map
          (fun r => ((r.1.1.map (fun stmt => { stmt with conn := ⟨dri, target, q0, e0⟩ }),
            r.1.2), r.2)) := by
  simp only [Conn.PrepareContext]
  cases target.PrepareContext with
  | some pc =>
    simp only
    cases pc ctx query s with
    | none => rfl
    | some r =>
      obtain ⟨out, s1⟩ := r
      cases out with
      | error err => rfl
      | ok stmtTarget => exact newStmt_conn _ _ _ _ _ _ _
  | none =>
    simp only
    by_cases hdone : ctx.isDone s = true
    · rw [if_pos hdone, if_pos hdone]
      rfl
    · rw [if_neg hdone, if_neg hdone]
      cases target.Prepare query s with
      | none => rfl
      | some r =>
        obtain ⟨out, s1⟩ := r
        cases out with
        | error err => rfl
        | ok stmtTarget => exact newStmt_conn _ _ _ _ _ _ _

theorem prepareQueryContextFunc_conn {σ : Type} (dri : Driver σ) (target : TargetConn σ)
    (q0 q1 : Option (QueryContextFunc σ)) (e0 e1 : Option (ExecContextFunc σ)) :
    Conn.prepareQueryContextFunc ⟨dri, target, q0, e0⟩
      = Conn.prepareQueryContextFunc ⟨dri, target, q1, e1⟩ := by
  funext ctx query namedArg s
  simp only [Conn.prepareQueryContextFunc]
  rw [PrepareContext_conn dri target q0 q1 e0 e1]
  cases Conn.PrepareContext ⟨dri, target, q1, e1⟩ ctx query s with
  | none => rfl
  | some r =>
    obtain ⟨⟨ostmt, oerr⟩, s1⟩ := r
    cases ostmt <;> cases oerr <;> rfl

theorem prepareExecContextFunc_conn {σ : Type} (dri : Driver σ) (target : TargetConn σ)
    (q0 q1 : Option (QueryContextFunc σ)) (e0 e1 : Option (ExecContextFunc σ)) :
    Conn.prepareExecContextFunc ⟨dri, target, q0, e0⟩
      = Conn.prepareExecContextFunc ⟨dri, target, q1, e1⟩ := by
  funext ctx query namedArg s
  simp only [Conn.prepareExecContextFunc]
  rw [PrepareContext_conn dri target q0 q1 e0 e1]
  cases Conn.PrepareContext ⟨dri, target, q1, e1⟩ ctx query s with
  | none => rfl
  | some r =>
    obtain ⟨⟨ostmt, oerr⟩, s1⟩ := r
    cases ostmt <;> cases oerr <;> rfl

/-- The query strategy resolved for a connection depends on its driver and
its target only, not on the strategy fields the record holds at that time. -/
theorem generateQueryContextFunc_conn {σ : Type} (dri : Driver σ) (target : TargetConn σ)
    (q0 q1 : Option (QueryContextFunc σ)) (e0 e1 : Option (ExecContextFunc σ)) :
    Conn.generateQueryContextFunc ⟨dri, target, q0, e0⟩
      = Conn.generateQueryContextFunc ⟨dri, target, q1, e1⟩ := by
  simp only [Conn.generateQueryContextFunc]
  cases target.QueryContext with
  | some native => rfl
  | none =>
    cases target.Query with
    | some legacy => rfl
    | none => exact prepareQueryContextFunc_conn dri target q0 q1 e0 e1

/-- The execute strategy resolved for a connection depends on its driver and
its target only. -/
theorem generateExecContextFunc_conn {σ : Type} (dri : Driver σ) (target : TargetConn σ)
    (q0 q1 : Option (QueryContextFunc σ)) (e0 e1 : Option (ExecContextFunc σ)) :
    Conn.generateExecContextFunc ⟨dri, target, q0, e0⟩
      = Conn.generateExecContextFunc ⟨dri, target, q1, e1⟩ := by
  simp only [Conn.generateExecContextFunc]
  cases target.ExecContext with
  | some native => rfl
  | none =>
    cases target.Exec with
    | some legacy => rfl
    | none => exact prepareExecContextFunc_conn dri target q0 q1 e0 e1

/-! ## Claims -/

/-- C1: for every list of middlewares and every base interceptor, the chain
applied to the base behaves on every call as the nested application
`m1 (m2 (... (mn f)))`: the first middleware of the list is the outermost
wrapper.  The execute chain composes in the same order. -/
theorem chain_first_is_outermost {σ : Type}
    (qs : List (QueryContextMiddleware σ)) (f : QueryContextFunc σ)
    (es : List (ExecContextMiddleware σ)) (g : ExecContextFunc σ)
    (ctx : Context σ) (query : String) (namedArg : List NamedValue) (s : σ) :
    QueryContextMiddlewareChain qs f ctx query namedArg s
        = qs.foldr (fun m next => m next) f ctx query namedArg s
      ∧ ExecContextMiddlewareChain es g ctx query namedArg s
        = es.foldr (fun m next => m next) g ctx query namedArg s := by
  constructor
  · simp only [QueryContextMiddlewareChain]
    rw [chainLoop_eq_foldr]
  · simp only [ExecContextMiddlewareChain]
    rw [chainLoop_eq_foldr]

/-- C2: when every registered statement factory succeeds on the query text
`query` (factory `c.1` yields middleware `c.2.1` and changes the world by
`c.2.2`), the chained factory succeeds on `query`; the world afterwards is the
one obtained by calling each factory once on `query` (nothing is assumed about
a factory on any other text); and the middleware returned, applied to a base
interceptor `g`, behaves as `m1 (m2 (... (mn g)))`.  The execute chain does the
same. -/
theorem stmt_chain_all_succeed {σ : Type} (query : String)
    (qcalls : List (NewStmtQueryContextMiddleware σ × StmtQueryContextMiddleware σ × (σ → σ)))
    (ecalls : List (NewStmtExecContextMiddleware σ × StmtExecContextMiddleware σ × (σ → σ)))
    (hq : ∀ c ∈ qcalls, ∀ s, c.1 query s = some (Except.ok c.2.1, c.2.2 s))
    (he : ∀ c ∈ ecalls, ∀ s, c.1 query s = some (Except.ok c.2.1, c.2.2 s))
    (s : σ) :
    (∃ mw, NewStmtQueryContextMiddlewareChain (qcalls.map (fun c => c.1)) query s
          = some (Except.ok mw, (qcalls.map (fun c => c.2.2)).foldr (fun eff t => eff t) s)
        ∧ ∀ g ctx namedArg t, mw g ctx namedArg t
            = (qcalls.map (fun c => c.2.1)).foldr (fun m next => m next) g ctx namedArg t)
      ∧ (∃ mw, NewStmtExecContextMiddlewareChain (ecalls.map (fun c => c.1)) query s
          = some (Except.ok mw, (ecalls.map (fun c => c.2.2)).foldr (fun eff t => eff t) s)
        ∧ ∀ g ctx namedArg t, mw g ctx namedArg t
            = (ecalls.map (fun c => c.2.1)).foldr (fun m next => m next) g ctx namedArg t) := by
  constructor
  · have hloop := newChainLoop_all_ok query qcalls hq [] [] s
    simp only [List.nil_append, List.append_nil] at hloop
    simp only [NewStmtQueryContextMiddlewareChain]
    rw [hloop]
    simp only [newChainLoop]
    refine ⟨_, rfl, ?_⟩
    intro g ctx namedArg t
    rw [chainLoop_eq_foldr]
  · have hloop := newChainLoop_all_ok query ecalls he [] [] s
    simp only [List.nil_append, List.append_nil] at hloop
    simp only [NewStmtExecContextMiddlewareChain]
    rw [hloop]
    simp only [newChainLoop]
    refine ⟨_, rfl, ?_⟩
    intro g ctx namedArg t
    rw [chainLoop_eq_foldr]

/-- Witness of C2: two probes that succeed; the log shows each called once
with the query text, and the middleware is the nested application. -/
theorem stmt_chain_all_succeed_witness :
    (∀ c ∈ sampleQueryCalls, ∀ s, c.1 sampleQuery s = some (Except.ok c.2.1, c.2.2 s))
      ∧ ∃ mw, NewStmtQueryContextMiddlewareChain
            [probe 0 (Except.ok nameAge), probe 1 (Except.ok (fun next => next))]
            sampleQuery []
          = some (Except.ok mw, [(1, sampleQuery), (0, sampleQuery)])
        ∧ ∀ g ctx namedArg t, mw g ctx namedArg t = nameAge g ctx namedArg t := by
  have hq : ∀ c ∈ sampleQueryCalls, ∀ s,
      c.1 sampleQuery s = some (Except.ok c.2.1, c.2.2 s) := by
    intro c hc s
    simp only [sampleQueryCalls, List.mem_cons, List.mem_singleton, List.not_mem_nil,
      or_false] at hc
    rcases hc with rfl | rfl <;> rfl
  have he : ∀ c ∈ sampleExecCalls, ∀ s,
      c.1 sampleQuery s = some (Except.ok c.2.1, c.2.2 s) := by
    intro c hc s
    simp only [sampleExecCalls, List.mem_singleton] at hc
    subst hc
    rfl
  obtain ⟨mw, h1, h2⟩ := (stmt_chain_all_succeed sampleQuery sampleQueryCalls
    sampleExecCalls hq he []).1
  exact ⟨hq, mw, h1, h2⟩

/-- Counterexample to C3: two factories that both fail.  The chain returns
the error of the second one, not of the one registered first, and the first
factory is not even called. -/
theorem first_registered_error_not_returned :
    NewStmtQueryContextMiddlewareChain
        [probe 0 (Except.error ⟨"first"⟩), probe 1 (Except.error ⟨"second"⟩)]
        sampleQuery []
      = some (Except.error ⟨"second"⟩, [(1, sampleQuery)])
    ∧ ¬ ∃ log, NewStmtQueryContextMiddlewareChain
        [probe 0 (Except.error ⟨"first"⟩), probe 1 (Except.error ⟨"second"⟩)]
        sampleQuery []
      = some (Except.error ⟨"first"⟩, log) := by
  have h : NewStmtQueryContextMiddlewareChain
        [probe 0 (Except.error ⟨"first"⟩), probe 1 (Except.error ⟨"second"⟩)]
        sampleQuery []
      = some (Except.error ⟨"second"⟩, [(1, sampleQuery)]) := rfl
  refine ⟨h, ?_⟩
  rintro ⟨log, hlog⟩
  rw [h] at hlog
  simp only [Option.some.injEq, Prod.mk.injEq, Except.error.injEq, Error.mk.injEq] at hlog
  exact absurd hlog.1 (by decide)

/-- C3 (amended): when at least one factory fails on the query text, the
chain returns no middleware and the error of the failing factory that is
registered last (`f`, every factory after it succeeds): the construction runs
from the last registered factory to the first and stops at the first failure it
meets.  Factories registered before `f` may fail as well.  The execute chain
does the same. -/
theorem stmt_chain_returns_last_registered_error {σ : Type} (query : String) (e : Error)
    (qpre qpost : List (NewStmtQueryContextMiddleware σ)) (qf : NewStmtQueryContextMiddleware σ)
    (epre epost : List (NewStmtExecContextMiddleware σ)) (ef : NewStmtExecContextMiddleware σ)
    (hqf : ∀ s, ∃ s1, qf query s = some (Except.error e, s1))
    (hqpost : ∀ g ∈ qpost, ∀ s, ∃ m s1, g query s = some (Except.ok m, s1))
    (hef : ∀ s, ∃ s1, ef query s = some (Except.error e, s1))
    (hepost : ∀ g ∈ epost, ∀ s, ∃ m s1, g query s = some (Except.ok m, s1))
    (s : σ) :
    (∃ s1, NewStmtQueryContextMiddlewareChain (qpre ++ [qf] ++ qpost) query s
        = some (Except.error e, s1))
      ∧ (∃ s1, NewStmtExecContextMiddlewareChain (epre ++ [ef] ++ epost) query s
        = some (Except.error e, s1)) := by
  constructor
  · obtain ⟨s1, h1⟩ := newChainLoop_last_error query e qpre qf hqf qpost hqpost [] s
    refine ⟨s1, ?_⟩
    simp only [NewStmtQueryContextMiddlewareChain]
    rw [h1]
  · obtain ⟨s1, h1⟩ := newChainLoop_last_error query e epre ef hef epost hepost [] s
    refine ⟨s1, ?_⟩
    simp only [NewStmtExecContextMiddlewareChain]
    rw [h1]

/-- Witness of C3 (amended): three query factories, the first two fail; the
error returned is the one of the second. -/
theorem stmt_chain_returns_last_registered_error_witness :
    (∀ s : Log, ∃ s1, (probe 1 (Except.error ⟨"second"⟩) : NewStmtQueryContextMiddleware Log)
        sampleQuery s = some (Except.error ⟨"second"⟩, s1))
      ∧ ∃ s1, NewStmtQueryContextMiddlewareChain
          ([probe 0 (Except.error ⟨"first"⟩)] ++ [probe 1 (Except.error ⟨"second"⟩)]
            ++ [probe 2 (Except.ok nameAge)]) sampleQuery []
        = some (Except.error ⟨"second"⟩, s1) := by
  have hf : ∀ s : Log, ∃ s1, (probe 1 (Except.error ⟨"second"⟩) : NewStmtQueryContextMiddleware Log)
      sampleQuery s = some (Except.error ⟨"second"⟩, s1) :=
    fun s => ⟨_, rfl⟩
  have hfe : ∀ s : Log, ∃ s1, (probe 1 (Except.error ⟨"second"⟩) : NewStmtExecContextMiddleware Log)
      sampleQuery s = some (Except.error ⟨"second"⟩, s1) :=
    fun s => ⟨_, rfl⟩
  refine ⟨hf, (stmt_chain_returns_last_registered_error sampleQuery ⟨"second"⟩
    [probe 0 (Except.error ⟨"first"⟩)] [probe 2 (Except.ok nameAge)]
    (probe 1 (Except.error ⟨"second"⟩)) [] [] (probe 1 (Except.error ⟨"second"⟩))
    hf ?_ hfe ?_ []).1⟩
  · intro g hg s
    simp only [List.mem_singleton] at hg
    subst hg
    exact ⟨_, _, rfl⟩
  · intro g hg
    simp at hg

/-- Counterexample to C4: three factories, the middle one fails.  The
factory registered after the failing one (position 2) has been called, the one
registered before it (position 0) has not. -/
theorem factory_after_failing_one_is_called :
    NewStmtQueryContextMiddlewareChain
        [probe 0 (Except.ok nameAge), probe 1 (Except.error ⟨"boom"⟩),
          probe 2 (Except.ok nameAge)] sampleQuery []
      = some (Except.error ⟨"boom"⟩, [(2, sampleQuery), (1, sampleQuery)])
    ∧ (2, sampleQuery) ∈ [(2, sampleQuery), (1, sampleQuery)]
    ∧ (0, sampleQuery) ∉ [(2, sampleQuery), (1, sampleQuery)] := by
  refine ⟨rfl, by simp, by simp⟩

/-- C4 (amended): if `f` fails on the query text and every factory
registered after it succeeds, then no factory registered before `f` is called
(the outcome and the world afterwards are the same for every `pre`, about which
nothing is assumed), while every factory registered after `f` is called once
with the query text, from the last to the first, and then `f`. -/
theorem stmt_chain_skips_factories_before_failure {σ : Type} (query : String) (e : Error)
    (pre : List (NewStmtQueryContextMiddleware σ)) (f : NewStmtQueryContextMiddleware σ)
    (eff : σ → σ)
    (post : List (NewStmtQueryContextMiddleware σ × StmtQueryContextMiddleware σ × (σ → σ)))
    (hf : ∀ s, f query s = some (Except.error e, eff s))
    (hpost : ∀ c ∈ post, ∀ s, c.1 query s = some (Except.ok c.2.1, c.2.2 s))
    (s : σ) :
    NewStmtQueryContextMiddlewareChain (pre ++ [f] ++ post.map (fun c => c.1)) query s
      = some (Except.error e,
          eff ((post.map (fun c => c.2.2)).foldr (fun effect t => effect t) s)) := by
  have hloop := newChainLoop_all_ok query post hpost (pre ++ [f]) [] s
  simp only [NewStmtQueryContextMiddlewareChain]
  rw [hloop, newChainLoop_concat, hf]

/-- Witness of C4 (amended): the probes of the counterexample. -/
theorem stmt_chain_skips_factories_before_failure_witness :
    (∀ s : Log, (probe 1 (Except.error ⟨"boom"⟩) : NewStmtQueryContextMiddleware Log)
        sampleQuery s = some (Except.error ⟨"boom"⟩, probeEffect 1 sampleQuery s))
      ∧ NewStmtQueryContextMiddlewareChain
          ([probe 0 (Except.ok nameAge)] ++ [probe 1 (Except.error ⟨"boom"⟩)]
            ++ [probe 2 (Except.ok nameAge)]) sampleQuery []
        = some (Except.error ⟨"boom"⟩, [(2, sampleQuery), (1, sampleQuery)]) := by
  have hf : ∀ s : Log, (probe 1 (Except.error ⟨"boom"⟩) : NewStmtQueryContextMiddleware Log)
      sampleQuery s = some (Except.error ⟨"boom"⟩, probeEffect 1 sampleQuery s) :=
    fun _ => rfl
  refine ⟨hf, stmt_chain_skips_factories_before_failure sampleQuery ⟨"boom"⟩
    [probe 0 (Except.ok nameAge)] (probe 1 (Except.error ⟨"boom"⟩)) (probeEffect 1 sampleQuery)
    [(probe 2 (Except.ok nameAge), nameAge, probeEffect 2 sampleQuery)] hf ?_ []⟩
  intro c hc s
  simp only [List.mem_singleton] at hc
  subst hc
  rfl

/-- C5: in a chain `pre ++ [stop] ++ post` whose middleware `stop` ignores
its next interceptor and returns the fixed error `e`, the composed interceptor
does the same on every call whatever `post` and the base interceptor are: they
are never called.  When every middleware of `pre` hands the call on to its next
interceptor unchanged (in particular when `pre` is empty), the call returns
exactly `e` with no rows (no result for the execute chain) and leaves the world
as it was. -/
theorem short_circuit_stops_the_chain {σ : Type} (e : Error)
    (qpre qpost qpost2 : List (QueryContextMiddleware σ)) (f f2 : QueryContextFunc σ)
    (epre epost epost2 : List (ExecContextMiddleware σ)) (g g2 : ExecContextFunc σ)
    (ctx : Context σ) (query : String) (namedArg : List NamedValue) (s : σ) :
    QueryContextMiddlewareChain (qpre ++ [shortCircuitQuery e] ++ qpost) f ctx query namedArg s
        = QueryContextMiddlewareChain (qpre ++ [shortCircuitQuery e] ++ qpost2) f2
            ctx query namedArg s
      ∧ ExecContextMiddlewareChain (epre ++ [shortCircuitExec e] ++ epost) g ctx query namedArg s
        = ExecContextMiddlewareChain (epre ++ [shortCircuitExec e] ++ epost2) g2
            ctx query namedArg s
      ∧ ((∀ m ∈ qpre, ∀ next c q a t, m next c q a t = next c q a t) →
          QueryContextMiddlewareChain (qpre ++ [shortCircuitQuery e] ++ qpost) f
              ctx query namedArg s
            = some ((none, some e), s))
      ∧ ((∀ m ∈ epre, ∀ next c q a t, m next c q a t = next c q a t) →
          ExecContextMiddlewareChain (epre ++ [shortCircuitExec e] ++ epost) g
              ctx query namedArg s
            = some ((none, some e), s)) := by
  have hq : ∀ (post : List (QueryContextMiddleware σ)) (base : QueryContextFunc σ),
      QueryContextMiddlewareChain (qpre ++ [shortCircuitQuery e] ++ post) base
        = qpre.foldr (fun m next => m next)
            (fun _ctx _query _namedArg t => some ((none, some e), t)) := by
    intro post base
    simp only [QueryContextMiddlewareChain]
    rw [chainLoop_eq_foldr]
    exact foldr_short_circuit qpre post _ base
  have hx : ∀ (post : List (ExecContextMiddleware σ)) (base : ExecContextFunc σ),
      ExecContextMiddlewareChain (epre ++ [shortCircuitExec e] ++ post) base
        = epre.foldr (fun m next => m next)
            (fun _ctx _query _namedArg t => some ((none, some e), t)) := by
    intro post base
    simp only [ExecContextMiddlewareChain]
    rw [chainLoop_eq_foldr]
    exact foldr_short_circuit epre post _ base
  refine ⟨by rw [hq, hq], by rw [hx, hx], ?_, ?_⟩
  · intro hpre
    rw [hq, foldr_pass_through qpre _ (fun m hm next => by
      funext c q a t
      exact hpre m hm next c q a t)]
  · intro hpre
    rw [hx, foldr_pass_through epre _ (fun m hm next => by
      funext c q a t
      exact hpre m hm next c q a t)]

/-- Witness of C5: a pass-through middleware, then the short circuit, then
a renaming middleware, over a base interceptor that would panic if called; and
the execute chain with the short circuit alone. -/
theorem short_circuit_stops_the_chain_witness :
    ((∀ m ∈ [((fun next => next) : QueryContextMiddleware Log)],
          ∀ next c q a t, m next c q a t = next c q a t)
        ∧ ∀ m ∈ ([] : List (ExecContextMiddleware Log)),
          ∀ next c q a t, m next c q a t = next c q a t)
      ∧ QueryContextMiddlewareChain
          ([((fun next => next) : QueryContextMiddleware Log)] ++ [shortCircuitQuery ⟨"test"⟩]
            ++ [nameAgeQuery]) (fun _ _ _ _ => none)
          background sampleQuery [⟨"", 1, Value.int64 18⟩] []
        = some ((none, some ⟨"test"⟩), [])
      ∧ ExecContextMiddlewareChain
          (([] : List (ExecContextMiddleware Log)) ++ [shortCircuitExec ⟨"test"⟩] ++ [])
          (fun _ _ _ _ => none) background sampleQuery [⟨"", 1, Value.int64 18⟩] []
        = some ((none, some ⟨"test"⟩), []) := by
  have hpre : ∀ m ∈ [((fun next => next) : QueryContextMiddleware Log)],
      ∀ next c q a t, m next c q a t = next c q a t := by
    intro m hm next c q a t
    simp only [List.mem_singleton] at hm
    subst hm
    rfl
  have hnil : ∀ m ∈ ([] : List (ExecContextMiddleware Log)),
      ∀ next c q a t, m next c q a t = next c q a t := by
    intro m hm
    simp at hm
  have h := short_circuit_stops_the_chain ⟨"test"⟩
    [fun next => next] [nameAgeQuery] [] (fun _ _ _ _ => none) (fun _ _ _ _ => none)
    [] [] [] (fun _ _ _ _ => none) (fun _ _ _ _ => none)
    (background : Context Log) sampleQuery [⟨"", 1, Value.int64 18⟩] []
  exact ⟨⟨hpre, hnil⟩, h.2.2.1 hpre, h.2.2.2 hnil⟩

/-- C6: the chain of an empty middleware list is the identity middleware,
for the query chain and the execute chain; the statement chain builders applied
to an empty factory list never fail, leave the world as it was and produce the
identity middleware. -/
theorem empty_chain_is_identity {σ : Type}
    (f : QueryContextFunc σ) (g : ExecContextFunc σ)
    (ctx : Context σ) (query : String) (namedArg : List NamedValue) (s : σ) :
    QueryContextMiddlewareChain [] f ctx query namedArg s = f ctx query namedArg s
      ∧ ExecContextMiddlewareChain [] g ctx query namedArg s = g ctx query namedArg s
      ∧ (∃ mw, NewStmtQueryContextMiddlewareChain [] query s = some (Except.ok mw, s)
          ∧ ∀ (h : StmtQueryContextFunc σ) c a t, mw h c a t = h c a t)
      ∧ (∃ mw, NewStmtExecContextMiddlewareChain [] query s = some (Except.ok mw, s)
          ∧ ∀ (h : StmtExecContextFunc σ) c a t, mw h c a t = h c a t) :=
  ⟨rfl, rfl, ⟨_, rfl, fun _ _ _ _ => rfl⟩, ⟨_, rfl, fun _ _ _ _ => rfl⟩⟩

/-- The stored strategies of `newConn` when building a wrapper has no
effect of its own: with `bq` the query strategy resolved for the driver and the
target, the connection stores `bq`, or `mw bq` when a query middleware is
configured, and `QueryContext` calls the stored strategy; the same for
`ExecContext`. -/
theorem newConn_wraps_resolved_strategy_once {σ : Type} (target : TargetConn σ) (dri : Driver σ)
    (oq : Option (QueryContextMiddleware σ)) (oe : Option (ExecContextMiddleware σ))
    (qmw : QueryContextMiddleware σ) (emw : ExecContextMiddleware σ)
    (q0 : Option (QueryContextFunc σ)) (e0 : Option (ExecContextFunc σ))
    (ctx : Context σ) (query : String) (namedArg : List NamedValue) (s : σ) :
    (newConn target dri none oe).QueryContext ctx query namedArg s
        = Conn.generateQueryContextFunc ⟨dri, target, q0, e0⟩ ctx query namedArg s
      ∧ (newConn target dri (some qmw) oe).queryContextFunc
        = some (qmw (Conn.generateQueryContextFunc ⟨dri, target, q0, e0⟩))
      ∧ (newConn target dri (some qmw) oe).QueryContext ctx query namedArg s
        = qmw (Conn.generateQueryContextFunc ⟨dri, target, q0, e0⟩) ctx query namedArg s
      ∧ (newConn target dri oq none).ExecContext ctx query namedArg s
        = Conn.generateExecContextFunc ⟨dri, target, q0, e0⟩ ctx query namedArg s
      ∧ (newConn target dri oq (some emw)).execContextFunc
        = some (emw (Conn.generateExecContextFunc ⟨dri, target, q0, e0⟩))
      ∧ (newConn target dri oq (some emw)).ExecContext ctx query namedArg s
        = emw (Conn.generateExecContextFunc ⟨dri, target, q0, e0⟩) ctx query namedArg s := by
  have hq := generateQueryContextFunc_conn dri target q0 none e0 none
  refine ⟨?_, ?_, ?_, ?_, ?_, ?_⟩
  · rw [hq]; rfl
  · rw [hq]; rfl
  · rw [hq]; rfl
  · rw [generateExecContextFunc_conn dri target q0 (newConn target dri oq none).queryContextFunc
      e0 none]
    rfl
  · rw [generateExecContextFunc_conn dri target q0
      (newConn target dri oq (some emw)).queryContextFunc e0 none]
    rfl
  · rw [generateExecContextFunc_conn dri target q0
      (newConn target dri oq (some emw)).queryContextFunc e0 none]
    rfl

/-- With middleware whose application has no effect, `newConnM` is
`newConn`. -/
theorem newConnM_pure {σ : Type} (target : TargetConn σ) (dri : Driver σ)
    (oq : Option (QueryContextMiddleware σ)) (oe : Option (ExecContextMiddleware σ)) (s : σ) :
    newConnM target dri (oq.map (fun mw next t => some (mw next, t)))
        (oe.map (fun mw next t => some (mw next, t))) s
      = some (newConn target dri oq oe, s) := by
  cases oq <;> cases oe <;> rfl

/-- C7: construction of a connection, the application of a middleware
being a call of its own.  Let `bq` be the query strategy capability detection
resolves for the driver and the target.  If a query middleware is configured
and its application to `bq` at construction returns `qf` (nothing is assumed
about any other application of it), or if none is configured and `qf` is `bq`,
and likewise `ef` for the execute side, then the construction succeeds, the
world after it is the one left by that one application of each configured
middleware, the connection stores `qf` and `ef`, and every later
`QueryContext` call is exactly a call of `qf`, every later `ExecContext` call
exactly a call of `ef`: the middleware is not applied again and nothing is
resolved again. -/
theorem newConn_applies_middleware_once {σ : Type} (target : TargetConn σ) (dri : Driver σ)
    (oq : Option (QueryContextFunc σ → M σ (QueryContextFunc σ)))
    (oe : Option (ExecContextFunc σ → M σ (ExecContextFunc σ)))
    (qf : QueryContextFunc σ) (ef : ExecContextFunc σ) (s s1 s2 : σ)
    (hq : ∀ mw, oq = some mw →
      mw (Conn.generateQueryContextFunc ⟨dri, target, none, none⟩) s = some (qf, s1))
    (hqn : oq = none → qf = Conn.generateQueryContextFunc ⟨dri, target, none, none⟩ ∧ s1 = s)
    (he : ∀ mw, oe = some mw →
      mw (Conn.generateExecContextFunc ⟨dri, target, none, none⟩) s1 = some (ef, s2))
    (hen : oe = none → ef = Conn.generateExecContextFunc ⟨dri, target, none, none⟩ ∧ s2 = s1)
    (ctx : Context σ) (query : String) (namedArg : List NamedValue) (t : σ) :
    ∃ conn, newConnM target dri oq oe s = some (conn, s2)
      ∧ conn.queryContextFunc = some qf
      ∧ conn.execContextFunc = some ef
      ∧ conn.QueryContext ctx query namedArg t = qf ctx query namedArg t
      ∧ conn.ExecContext ctx query namedArg t = ef ctx query namedArg t := by
  have hbase : ∀ q0 : Option (QueryContextFunc σ),
      Conn.generateExecContextFunc ⟨dri, target, q0, none⟩
        = Conn.generateExecContextFunc ⟨dri, target, none, none⟩ :=
    fun q0 => generateExecContextFunc_conn dri target q0 none none none
  have hqstep : ∀ o : Option (QueryContextFunc σ → M σ (QueryContextFunc σ)), o = oq →
      (match o with
        | some middleware =>
          middleware (Conn.generateQueryContextFunc ⟨dri, target, none, none⟩) s
        | none => some (Conn.generateQueryContextFunc ⟨dri, target, none, none⟩, s))
        = some (qf, s1) := by
    intro o ho
    cases o with
    | some mw => exact hq mw ho.symm
    | none =>
      obtain ⟨h1, h2⟩ := hqn ho.symm
      rw [h1, h2]
  have hestep : ∀ o : Option (ExecContextFunc σ → M σ (ExecContextFunc σ)), o = oe →
      (match o with
        | some middleware =>
          middleware (Conn.generateExecContextFunc ⟨dri, target, some qf, none⟩) s1
        | none => some (Conn.generateExecContextFunc ⟨dri, target, some qf, none⟩, s1))
        = some (ef, s2) := by
    intro o ho
    rw [hbase (some qf)]
    cases o with
    | some mw => exact he mw ho.symm
    | none =>
      obtain ⟨h1, h2⟩ := hen ho.symm
      rw [h1, h2]
  refine ⟨⟨dri, target, some qf, some ef⟩, ?_, rfl, rfl, rfl, rfl⟩
  simp only [newConnM, hqstep oq rfl, hestep oe rfl]

/-- Witness of C7: a target with the native query, a query middleware and
an execute middleware whose applications are recorded.  The construction
records one application of each; two queries afterwards record the two native
calls and no further application. -/
theorem newConn_applies_middleware_once_witness :
    ((∀ mw, some countingQueryMiddleware = some mw →
          mw (Conn.generateQueryContextFunc
            ⟨bareDriver, { bareConn with QueryContext := some echoQueryContext }, none, none⟩) []
            = some (nameAgeQuery echoQueryContext, [(14, "wrap query")]))
        ∧ (some countingQueryMiddleware = none →
          nameAgeQuery echoQueryContext = Conn.generateQueryContextFunc
            ⟨bareDriver, { bareConn with QueryContext := some echoQueryContext }, none, none⟩
          ∧ [(14, "wrap query")] = ([] : Log)))
      ∧ ∃ conn, newConnM { bareConn with QueryContext := some echoQueryContext } bareDriver
            (some countingQueryMiddleware) (some countingExecMiddleware) []
          = some (conn, [(14, "wrap query"), (16, "wrap exec")])
        ∧ conn.QueryContext background sampleQuery [⟨"", 1, Value.int64 18⟩]
            [(14, "wrap query"), (16, "wrap exec")]
          = some ((some ⟨["age"], [[Value.int64 18]]⟩, none),
              [(14, "wrap query"), (16, "wrap exec"), (0, sampleQuery)])
        ∧ conn.QueryContext background sampleQuery [⟨"", 1, Value.int64 18⟩]
            [(14, "wrap query"), (16, "wrap exec"), (0, sampleQuery)]
          = some ((some ⟨["age"], [[Value.int64 18]]⟩, none),
              [(14, "wrap query"), (16, "wrap exec"), (0, sampleQuery), (0, sampleQuery)]) := by
  have hq : ∀ mw, some countingQueryMiddleware = some mw →
      mw (Conn.generateQueryContextFunc
        ⟨bareDriver, { bareConn with QueryContext := some echoQueryContext }, none, none⟩) []
        = some (nameAgeQuery echoQueryContext, [(14, "wrap query")]) := by
    intro mw hmw
    simp only [Option.some.injEq] at hmw
    subst hmw
    rfl
  have hqn : some countingQueryMiddleware = none →
      nameAgeQuery echoQueryContext = Conn.generateQueryContextFunc
        ⟨bareDriver, { bareConn with QueryContext := some echoQueryContext }, none, none⟩
      ∧ [(14, "wrap query")] = ([] : Log) := by
    intro h
    simp at h
  have hthm := newConn_applies_middleware_once
    { bareConn with QueryContext := some echoQueryContext } bareDriver
    (some countingQueryMiddleware) (some countingExecMiddleware)
    (nameAgeQuery echoQueryContext)
    (Conn.generateExecContextFunc
      ⟨bareDriver, { bareConn with QueryContext := some echoQueryContext }, none, none⟩)
    [] [(14, "wrap query")] [(14, "wrap query"), (16, "wrap exec")] hq hqn
    (fun mw hmw => by
      simp only [Option.some.injEq] at hmw
      subst hmw
      rfl)
    (fun h => by simp at h)
    background sampleQuery [⟨"", 1, Value.int64 18⟩]
  obtain ⟨conn, hnew, _, _, hcall1, _⟩ := hthm [(14, "wrap query"), (16, "wrap exec")]
  obtain ⟨conn2, hnew2, _, _, hcall2, _⟩ :=
    hthm [(14, "wrap query"), (16, "wrap exec"), (0, sampleQuery)]
  have hsame : conn2 = conn := by
    rw [hnew] at hnew2
    simp only [Option.some.injEq, Prod.mk.injEq, and_true] at hnew2
    exact hnew2.symm
  subst hsame
  refine ⟨⟨hq, hqn⟩, conn2, hnew, ?_, ?_⟩
  · rw [hcall1]
    rfl
  · rw [hcall2]
    rfl

/-- C8: `Conn.generateQueryContextFunc` selects by strict priority: the
native context-aware query of the target, returned as it is, also when the
target implements the legacy query as well; otherwise the legacy emulation over
the legacy query; otherwise the prepare-and-delegate emulation. -/
theorem generateQueryContextFunc_priority {σ : Type} (conn : Conn σ) :
    (∀ native, conn.target.QueryContext = some native →
        conn.generateQueryContextFunc = native)
      ∧ (∀ legacy, conn.target.QueryContext = none → conn.target.Query = some legacy →
        conn.generateQueryContextFunc = Conn.legacyQueryContextFunc legacy)
      ∧ (conn.target.QueryContext = none → conn.target.Query = none →
        conn.generateQueryContextFunc = Conn.prepareQueryContextFunc conn) := by
  refine ⟨?_, ?_, ?_⟩
  · intro native h
    simp only [Conn.generateQueryContextFunc, h]
  · intro legacy h1 h2
    simp only [Conn.generateQueryContextFunc, h1, h2]
  · intro h1 h2
    simp only [Conn.generateQueryContextFunc, h1, h2]

/-- Witness of C8: a target with both the native and the legacy query
(the native one is selected and receives a named parameter as it is), a target
with the legacy query only (the named parameter is rejected), and a target with
neither (the query is prepared, which this target refuses). -/
theorem generateQueryContextFunc_priority_witness :
    (({ bareConn with QueryContext := some echoQueryContext, Query := some echoQuery }
          : TargetConn Log).QueryContext = some echoQueryContext
        ∧ ({ bareConn with Query := some echoQuery } : TargetConn Log).QueryContext = none
        ∧ ({ bareConn with Query := some echoQuery } : TargetConn Log).Query = some echoQuery
        ∧ bareConn.QueryContext = none ∧ bareConn.Query = none)
      ∧ Conn.generateQueryContextFunc
          ⟨bareDriver,
            { bareConn with QueryContext := some echoQueryContext, Query := some echoQuery },
            none, none⟩
          background sampleQuery [⟨"age", 1, Value.int64 18⟩] []
        = some ((some ⟨["age"], [[Value.int64 18]]⟩, none), [(0, sampleQuery)])
      ∧ Conn.generateQueryContextFunc
          ⟨bareDriver, { bareConn with Query := some echoQuery }, none, none⟩
          background sampleQuery [⟨"age", 1, Value.int64 18⟩] []
        = some ((none, some ⟨"not support the use of Named Parameters"⟩), [])
      ∧ Conn.generateQueryContextFunc ⟨bareDriver, bareConn, none, none⟩
          background sampleQuery [⟨"age", 1, Value.int64 18⟩] []
        = some ((none, some ⟨"prepare refused"⟩), []) := by
  refine ⟨⟨rfl, rfl, rfl, rfl, rfl⟩, ?_, ?_, ?_⟩
  · rw [(generateQueryContextFunc_priority
      ⟨bareDriver,
        { bareConn with QueryContext := some echoQueryContext, Query := some echoQuery },
        none, none⟩).1 echoQueryContext rfl]
    rfl
  · rw [(generateQueryContextFunc_priority
      ⟨bareDriver, { bareConn with Query := some echoQuery }, none, none⟩).2.1
        echoQuery rfl rfl]
    rfl
  · rw [(generateQueryContextFunc_priority ⟨bareDriver, bareConn, none, none⟩).2.2 rfl rfl]
    rfl

/-- C9: for a connection whose target has the legacy query only, and a
context that is not cancelled in the present state: when every parameter is
unnamed the strategy returns exactly what the legacy query returns on the same
query text and the values of the parameters in list order; when some parameter
has a non-empty name it returns the named-parameter error and leaves the world
as it was, whatever the legacy query is: the legacy query is not called. -/
theorem legacy_query_fallback {σ : Type} (conn : Conn σ)
    (legacy : String → List Value → M σ (Option Rows × Option Error))
    (hnative : conn.target.QueryContext = none) (hlegacy : conn.target.Query = some legacy)
    (ctx : Context σ) (s : σ) (hctx : ctx.isDone s = false)
    (query : String) (namedArg : List NamedValue) :
    ((∀ p ∈ namedArg, p.Name = "") →
        conn.generateQueryContextFunc ctx query namedArg s
          = legacy query (namedArg.map (fun p => p.Value)) s)
      ∧ ((∃ p ∈ namedArg, p.Name ≠ "") →
        conn.generateQueryContextFunc ctx query namedArg s
          = some ((none, some ⟨"not support the use of Named Parameters"⟩), s)) := by
  have hgen : conn.generateQueryContextFunc = Conn.legacyQueryContextFunc legacy := by
    simp only [Conn.generateQueryContextFunc, hnative, hlegacy]
  constructor
  · intro h
    rw [hgen]
    simp only [Conn.legacyQueryContextFunc, hctx, namedValueToValue_unnamed namedArg h]
    rfl
  · intro h
    rw [hgen]
    simp only [Conn.legacyQueryContextFunc, hctx, namedValueToValue_named namedArg h]
    rfl

/-- Witness of C9: a legacy-only target, called once with one unnamed
parameter and once with one named parameter. -/
theorem legacy_query_fallback_witness :
    ((∀ p ∈ [(⟨"", 1, Value.int64 18⟩ : NamedValue)], p.Name = "")
        ∧ (∃ p ∈ [(⟨"age", 1, Value.int64 18⟩ : NamedValue)], p.Name ≠ "")
        ∧ (background : Context Log).isDone [] = false)
      ∧ Conn.generateQueryContextFunc
          ⟨bareDriver, { bareConn with Query := some echoQuery }, none, none⟩
          background sampleQuery [⟨"", 1, Value.int64 18⟩] []
        = some ((some ⟨[], [[Value.int64 18]]⟩, none), [(1, sampleQuery)])
      ∧ Conn.generateQueryContextFunc
          ⟨bareDriver, { bareConn with Query := some echoQuery }, none, none⟩
          background sampleQuery [⟨"age", 1, Value.int64 18⟩] []
        = some ((none, some ⟨"not support the use of Named Parameters"⟩), []) := by
  have hp : ∀ p ∈ [(⟨"", 1, Value.int64 18⟩ : NamedValue)], p.Name = "" := by
    intro p hp
    simp only [List.mem_singleton] at hp
    subst hp
    rfl
  have hn : ∃ p ∈ [(⟨"age", 1, Value.int64 18⟩ : NamedValue)], p.Name ≠ "" :=
    ⟨⟨"age", 1, Value.int64 18⟩, by simp, by decide⟩
  refine ⟨⟨hp, hn, rfl⟩, ?_, ?_⟩
  · rw [(legacy_query_fallback
      ⟨bareDriver, { bareConn with Query := some echoQuery }, none, none⟩ echoQuery rfl rfl
      background [] rfl sampleQuery [⟨"", 1, Value.int64 18⟩]).1 hp]
    rfl
  · exact (legacy_query_fallback
      ⟨bareDriver, { bareConn with Query := some echoQuery }, none, none⟩ echoQuery rfl rfl
      background [] rfl sampleQuery [⟨"age", 1, Value.int64 18⟩]).2 hn

/-- C10: `namedValueToValue` returns an error, and then no values, exactly
when at least one parameter of the list has a non-empty name; otherwise it
returns no error. -/
theorem namedValueToValue_error_iff_named (named : List NamedValue) :
    (namedValueToValue named = (none, some ⟨"not support the use of Named Parameters"⟩)
        ↔ ∃ p ∈ named, p.Name ≠ "")
      ∧ ((namedValueToValue named).2 = none ↔ ¬ ∃ p ∈ named, p.Name ≠ "") := by
  by_cases h : ∃ p ∈ named, p.Name ≠ ""
  · have hval := namedValueToValue_named named h
    rw [hval]
    simp [h]
  · have hall : ∀ p ∈ named, p.Name = "" := by
      intro p hp
      by_contra hne
      exact h ⟨p, hp, hne⟩
    have hval := namedValueToValue_unnamed named hall
    rw [hval]
    simp [h]

/-- C11: for a parameter list whose names are all empty,
`namedValueToValue` succeeds with a list of the same length whose i-th element
is the `Value` of the i-th parameter, in list order (the `Ordinal` fields are
not read); for the empty list it returns the empty list. -/
theorem namedValueToValue_positional (named : List NamedValue)
    (h : ∀ p ∈ named, p.Name = "") :
    (∃ vals, namedValueToValue named = (some vals, none)
        ∧ vals.length = named.length
        ∧ ∀ i : Nat, vals[i]? = (named[i]?).map (fun (p : NamedValue) => p.Value))
      ∧ namedValueToValue [] = (some [], none) := by
  refine ⟨⟨named.map (fun p => p.Value), namedValueToValue_unnamed named h, ?_, ?_⟩, rfl⟩
  · simp
  · intro i
    simp

/-- Witness of C11: two unnamed parameters whose ordinals are not their
positions. -/
theorem namedValueToValue_positional_witness :
    (∀ p ∈ [(⟨"", 2, Value.string "paid"⟩ : NamedValue), ⟨"", 1, Value.int64 100⟩],
        p.Name = "")
      ∧ ∃ vals, namedValueToValue [⟨"", 2, Value.string "paid"⟩, ⟨"", 1, Value.int64 100⟩]
          = (some vals, none)
        ∧ vals.length = 2
        ∧ ∀ i : Nat, vals[i]?
          = ([(⟨"", 2, Value.string "paid"⟩ : NamedValue), ⟨"", 1, Value.int64 100⟩][i]?).map
              (fun (p : NamedValue) => p.Value) := by
  have hp : ∀ p ∈ [(⟨"", 2, Value.string "paid"⟩ : NamedValue), ⟨"", 1, Value.int64 100⟩],
      p.Name = "" := by
    intro p hp
    simp only [List.mem_cons, List.mem_singleton, List.not_mem_nil, or_false] at hp
    rcases hp with rfl | rfl <;> rfl
  exact ⟨hp, (namedValueToValue_positional
    [⟨"", 2, Value.string "paid"⟩, ⟨"", 1, Value.int64 100⟩] hp).1⟩

/-- C12: for a connection whose target has neither the native nor the
legacy query, the query strategy prepares the query text through
`Conn.PrepareContext`.  If the preparation returns an error `e`, the strategy
returns `e` with no rows and the world is the one the preparation left: nothing
is closed.  Otherwise it returns exactly what `QueryContext` of the statement
adapter returns on the context and the parameters, an error included, and the
world afterwards is the one left by one call of `Close` on that statement
after the query; what `Close` returns is dropped. -/
theorem prepare_and_delegate_query {σ : Type} (conn : Conn σ)
    (hnative : conn.target.QueryContext = none) (hlegacy : conn.target.Query = none)
    (ctx : Context σ) (query : String) (namedArg : List NamedValue) (s : σ) :
    (∀ ostmt e s1, conn.PrepareContext ctx query s = some ((ostmt, some e), s1) →
        conn.generateQueryContextFunc ctx query namedArg s = some ((none, some e), s1))
      ∧ (∀ stmt s1 r s2 closed s3,
        conn.PrepareContext ctx query s = some ((some stmt, none), s1) →
        stmt.QueryContext ctx namedArg s1 = some (r, s2) →
        stmt.Close s2 = some (closed, s3) →
        conn.generateQueryContextFunc ctx query namedArg s = some (r, s3)) := by
  have hgen : conn.generateQueryContextFunc = Conn.prepareQueryContextFunc conn := by
    simp only [Conn.generateQueryContextFunc, hnative, hlegacy]
  constructor
  · intro ostmt e s1 hprep
    rw [hgen]
    simp only [Conn.prepareQueryContextFunc, hprep]
  · intro stmt s1 r s2 closed s3 hprep hquery hclose
    rw [hgen]
    simp only [Conn.prepareQueryContextFunc, hprep, hquery, hclose]

/-- Witness of C12: a target with the legacy prepare only.  The log shows
the prepare, the statement query and one close; a target that refuses to
prepare gives the error of the prepare and an empty log. -/
theorem prepare_and_delegate_query_witness :
    (preparingConn.QueryContext = none ∧ preparingConn.Query = none
        ∧ Conn.PrepareContext ⟨bareDriver, bareConn, none, none⟩ background sampleQuery []
          = some ((none, some ⟨"prepare refused"⟩), []))
      ∧ Conn.generateQueryContextFunc ⟨bareDriver, preparingConn, none, none⟩
          background sampleQuery [⟨"", 1, Value.int64 18⟩] []
        = some ((some ⟨["name"], [[Value.int64 18]]⟩, none),
            [(2, sampleQuery), (3, "stmt query"), (4, "close")])
      ∧ Conn.generateQueryContextFunc ⟨bareDriver, bareConn, none, none⟩
          background sampleQuery [⟨"", 1, Value.int64 18⟩] []
        = some ((none, some ⟨"prepare refused"⟩), []) := by
  refine ⟨⟨rfl, rfl, rfl⟩, ?_, ?_⟩
  · exact (prepare_and_delegate_query ⟨bareDriver, preparingConn, none, none⟩ rfl rfl
      background sampleQuery [⟨"", 1, Value.int64 18⟩] []).2 _ _ _ _ _ _ rfl rfl rfl
  · exact (prepare_and_delegate_query ⟨bareDriver, bareConn, none, none⟩ rfl rfl
      background sampleQuery [⟨"", 1, Value.int64 18⟩] []).1 _ _ _ rfl

/-- C13: the execute strategy is the query strategy with the execute
operations in the place of the query operations.  Both strategies of conn.go
are the three-tier fallback of the specification, instantiated at the native
operation, the legacy operation and the statement operation of their kind, so
the same tier is selected whenever the capabilities mirror each other, and the
prepare, delegate and close steps are the same.  In the legacy tier both poll
the context first and return its error when it is done, both reject a named
parameter with the same error, and both hand the same query text and the same
converted values to their legacy operation. -/
theorem exec_strategy_mirrors_query_strategy {σ : Type} (conn : Conn σ)
    (ctx : Context σ) (query : String) (namedArg : List NamedValue) (s : σ) :
    conn.generateQueryContextFunc
        = specThreeTierFallback conn conn.target.QueryContext conn.target.Query
            Stmt.QueryContext
      ∧ conn.generateExecContextFunc
        = specThreeTierFallback conn conn.target.ExecContext conn.target.Exec
            Stmt.ExecContext
      ∧ (∀ legacyQuery legacyExec,
          conn.target.QueryContext = none → conn.target.Query = some legacyQuery →
          conn.target.ExecContext = none → conn.target.Exec = some legacyExec →
          (ctx.isDone s = true →
            conn.generateQueryContextFunc ctx query namedArg s = some ((none, ctx.Err s), s)
            ∧ conn.generateExecContextFunc ctx query namedArg s
              = some ((none, ctx.Err s), s))
          ∧ (ctx.isDone s = false → (∃ p ∈ namedArg, p.Name ≠ "") →
            conn.generateQueryContextFunc ctx query namedArg s
              = some ((none, some ⟨"not support the use of Named Parameters"⟩), s)
            ∧ conn.generateExecContextFunc ctx query namedArg s
              = some ((none, some ⟨"not support the use of Named Parameters"⟩), s))
          ∧ (ctx.isDone s = false → (∀ p ∈ namedArg, p.Name = "") →
            conn.generateQueryContextFunc ctx query namedArg s
              = legacyQuery query (namedArg.map (fun p => p.Value)) s
            ∧ conn.generateExecContextFunc ctx query namedArg s
              = legacyExec query (namedArg.map (fun p => p.Value)) s)) := by
  refine ⟨?_, ?_, ?_⟩
  · simp only [Conn.generateQueryContextFunc, specThreeTierFallback]
    cases conn.target.QueryContext with
    | some native => rfl
    | none =>
      cases conn.target.Query with
      | some legacy => rfl
      | none =>
        funext c q a t
        simp only [Conn.prepareQueryContextFunc, specPrepareTier]
        cases conn.PrepareContext c q t with
        | none => rfl
        | some r =>
          obtain ⟨⟨ostmt, oerr⟩, s1⟩ := r
          rcases ostmt with _ | stmt <;> rcases oerr with _ | err <;> try rfl
          simp only
          cases stmt.QueryContext c a s1 with
          | none => rfl
          | some r2 =>
            obtain ⟨r, s2⟩ := r2
            simp only
  · simp only [Conn.generateExecContextFunc, specThreeTierFallback]
    cases conn.target.ExecContext with
    | some native => rfl
    | none =>
      cases conn.target.Exec with
      | some legacy => rfl
      | none =>
        funext c q a t
        simp only [Conn.prepareExecContextFunc, specPrepareTier]
        cases conn.PrepareContext c q t with
        | none => rfl
        | some r =>
          obtain ⟨⟨ostmt, oerr⟩, s1⟩ := r
          rcases ostmt with _ | stmt <;> rcases oerr with _ | err <;> try rfl
          simp only
          cases stmt.ExecContext c a s1 with
          | none => rfl
          | some r2 =>
            obtain ⟨r, s2⟩ := r2
            simp only
  · intro legacyQuery legacyExec hq1 hq2 he1 he2
    have hgq : conn.generateQueryContextFunc = Conn.legacyQueryContextFunc legacyQuery := by
      simp only [Conn.generateQueryContextFunc, hq1, hq2]
    have hge : conn.generateExecContextFunc = Conn.legacyExecContextFunc legacyExec := by
      simp only [Conn.generateExecContextFunc, he1, he2]
    rw [hgq, hge]
    refine ⟨?_, ?_, ?_⟩
    · intro hdone
      simp only [Conn.legacyQueryContextFunc, Conn.legacyExecContextFunc, hdone]
      exact ⟨rfl, rfl⟩
    · intro hdone hnamed
      simp only [Conn.legacyQueryContextFunc, Conn.legacyExecContextFunc, hdone,
        namedValueToValue_named namedArg hnamed]
      exact ⟨rfl, rfl⟩
    · intro hdone hunnamed
      simp only [Conn.legacyQueryContextFunc, Conn.legacyExecContextFunc, hdone,
        namedValueToValue_unnamed namedArg hunnamed]
      exact ⟨rfl, rfl⟩

/-- Witness of C13: a target with the legacy query and the legacy execute
only, called with a cancelled context and with one unnamed parameter. -/
theorem exec_strategy_mirrors_query_strategy_witness :
    (({ bareConn with Query := some echoQuery, Exec := some echoExec }
          : TargetConn Log).Query = some echoQuery
        ∧ (cancelled : Context Log).isDone [] = true
        ∧ (background : Context Log).isDone [] = false
        ∧ ∀ p ∈ [(⟨"", 1, Value.int64 18⟩ : NamedValue)], p.Name = "")
      ∧ (Conn.generateQueryContextFunc
            ⟨bareDriver, { bareConn with Query := some echoQuery, Exec := some echoExec },
              none, none⟩ cancelled sampleQuery [⟨"", 1, Value.int64 18⟩] []
          = some ((none, some ⟨"context canceled"⟩), [])
        ∧ Conn.generateExecContextFunc
            ⟨bareDriver, { bareConn with Query := some echoQuery, Exec := some echoExec },
              none, none⟩ cancelled sampleQuery [⟨"", 1, Value.int64 18⟩] []
          = some ((none, some ⟨"context canceled"⟩), []))
      ∧ (Conn.generateQueryContextFunc
            ⟨bareDriver, { bareConn with Query := some echoQuery, Exec := some echoExec },
              none, none⟩ background sampleQuery [⟨"", 1, Value.int64 18⟩] []
          = some ((some ⟨[], [[Value.int64 18]]⟩, none), [(1, sampleQuery)])
        ∧ Conn.generateExecContextFunc
            ⟨bareDriver, { bareConn with Query := some echoQuery, Exec := some echoExec },
              none, none⟩ background sampleQuery [⟨"", 1, Value.int64 18⟩] []
          = some ((some ⟨0, 1⟩, none), [(1, sampleQuery)])) := by
  have hp : ∀ p ∈ [(⟨"", 1, Value.int64 18⟩ : NamedValue)], p.Name = "" := by
    intro p hp
    simp only [List.mem_singleton] at hp
    subst hp
    rfl
  refine ⟨⟨rfl, rfl, rfl, hp⟩, ?_, ?_⟩
  · exact ((exec_strategy_mirrors_query_strategy
      ⟨bareDriver, { bareConn with Query := some echoQuery, Exec := some echoExec },
        none, none⟩ cancelled sampleQuery [⟨"", 1, Value.int64 18⟩] []).2.2
      echoQuery echoExec rfl rfl rfl rfl).1 rfl
  · exact ((exec_strategy_mirrors_query_strategy
      ⟨bareDriver, { bareConn with Query := some echoQuery, Exec := some echoExec },
        none, none⟩ background sampleQuery [⟨"", 1, Value.int64 18⟩] []).2.2
      echoQuery echoExec rfl rfl rfl rfl).2.2 rfl hp

/-! ## Statement construction -/

/-- What `newStmt` returns when both wrapping steps succeed. -/
theorem newStmt_ok {σ : Type} (target : TargetStmt σ) (conn : Conn σ) (query : String)
    (nq : Option (NewStmtQueryContextMiddleware σ))
    (ne : Option (NewStmtExecContextMiddleware σ))
    (qf : StmtQueryContextFunc σ) (ef : StmtExecContextFunc σ) (s s1 s2 : σ)
    (hq : newStmtWrap nq query
      (Stmt.generateQueryContextFunc ⟨target, none, none, conn, query, none, none⟩) s
        = some (Except.ok qf, s1))
    (he : newStmtWrap ne query
      (Stmt.generateExecContextFunc ⟨target, none, none, conn, query, none, none⟩) s1
        = some (Except.ok ef, s2)) :
    newStmt target conn query nq ne s
      = some ((some ⟨target, none, none, conn, query, some qf, some ef⟩, none), s2) := by
  have he2 : newStmtWrap ne query
      (Stmt.generateExecContextFunc ⟨target, none, none, conn, query, some qf, none⟩) s1
        = some (Except.ok ef, s2) := he
  simp only [newStmt, hq, he2]

/-- What `newStmt` returns when the query factory fails. -/
theorem newStmt_query_error {σ : Type} (target : TargetStmt σ) (conn : Conn σ) (query : String)
    (nq : Option (NewStmtQueryContextMiddleware σ))
    (ne : Option (NewStmtExecContextMiddleware σ)) (e : Error) (s s1 : σ)
    (hq : newStmtWrap nq query
      (Stmt.generateQueryContextFunc ⟨target, none, none, conn, query, none, none⟩) s
        = some (Except.error e, s1)) :
    newStmt target conn query nq ne s = some ((none, some e), s1) := by
  simp only [newStmt, hq]

/-- What `newStmt` returns when the execute factory fails. -/
theorem newStmt_exec_error {σ : Type} (target : TargetStmt σ) (conn : Conn σ) (query : String)
    (nq : Option (NewStmtQueryContextMiddleware σ))
    (ne : Option (NewStmtExecContextMiddleware σ))
    (qf : StmtQueryContextFunc σ) (e : Error) (s s1 s2 : σ)
    (hq : newStmtWrap nq query
      (Stmt.generateQueryContextFunc ⟨target, none, none, conn, query, none, none⟩) s
        = some (Except.ok qf, s1))
    (he : newStmtWrap ne query
      (Stmt.generateExecContextFunc ⟨target, none, none, conn, query, none, none⟩) s1
        = some (Except.error e, s2)) :
    newStmt target conn query nq ne s = some ((none, some e), s2) := by
  have he2 : newStmtWrap ne query
      (Stmt.generateExecContextFunc ⟨target, none, none, conn, query, some qf, none⟩) s1
        = some (Except.error e, s2) := he
  simp only [newStmt, hq, he2]

/-- A statement returned by `newStmt` holds the handle, the connection, the
query text and the two wrapped strategies. -/
theorem newStmt_inv {σ : Type} (target : TargetStmt σ) (conn : Conn σ) (query : String)
    (nq : Option (NewStmtQueryContextMiddleware σ))
    (ne : Option (NewStmtExecContextMiddleware σ)) (stmt : Stmt σ) (s s2 : σ)
    (h : newStmt target conn query nq ne s = some ((some stmt, none), s2)) :
    ∃ qf ef s1,
      newStmtWrap nq query
          (Stmt.generateQueryContextFunc ⟨target, none, none, conn, query, none, none⟩) s
        = some (Except.ok qf, s1)
      ∧ newStmtWrap ne query
          (Stmt.generateExecContextFunc ⟨target, none, none, conn, query, none, none⟩) s1
        = some (Except.ok ef, s2)
      ∧ stmt = ⟨target, none, none, conn, query, some qf, some ef⟩ := by
  cases hq : newStmtWrap nq query
      (Stmt.generateQueryContextFunc ⟨target, none, none, conn, query, none, none⟩) s with
  | none => simp [newStmt, hq] at h
  | some r =>
    obtain ⟨out, s1⟩ := r
    cases out with
    | error err => simp [newStmt, hq] at h
    | ok qf =>
      cases he : newStmtWrap ne query
          (Stmt.generateExecContextFunc ⟨target, none, none, conn, query, none, none⟩) s1 with
      | none =>
        have he2 : newStmtWrap ne query (Stmt.generateExecContextFunc
            ⟨target, none, none, conn, query, some qf, none⟩) s1 = none := he
        simp [newStmt, hq, he2] at h
      | some r2 =>
        obtain ⟨out2, s3⟩ := r2
        cases out2 with
        | error err =>
          have he2 : newStmtWrap ne query (Stmt.generateExecContextFunc
              ⟨target, none, none, conn, query, some qf, none⟩) s1
                = some (Except.error err, s3) := he
          simp [newStmt, hq, he2] at h
        | ok ef =>
          have hok := newStmt_ok target conn query nq ne qf ef s s1 s3 hq he
          rw [hok] at h
          simp only [Option.some.injEq, Prod.mk.injEq, and_true] at h
          obtain ⟨hstmt, hs⟩ := h
          subst hs
          exact ⟨qf, ef, s1, rfl, he, hstmt.symm⟩

/-- Once the target has prepared the statement, `Conn.PrepareContext` is
`newStmt` on the handle returned, with the query text and the two factories of
the driver configuration. -/
theorem PrepareContext_eq_newStmt {σ : Type} (conn : Conn σ) (ctx : Context σ)
    (query : String) (s s1 : σ) (stmtTarget : TargetStmt σ)
    (hprep : (∃ pc, conn.target.PrepareContext = some pc
          ∧ pc ctx query s = some (Except.ok stmtTarget, s1))
        ∨ (conn.target.PrepareContext = none ∧ ctx.isDone s = false
          ∧ conn.target.Prepare query s = some (Except.ok stmtTarget, s1))) :
    conn.PrepareContext ctx query s
      = newStmt stmtTarget conn query
          conn.driver.MiddlewareGroup.NewStmtQueryContextMiddleware
          conn.driver.MiddlewareGroup.NewStmtExecContextMiddleware s1 := by
  rcases hprep with ⟨pc, hpc, hcall⟩ | ⟨hpc, hdone, hcall⟩
  · simp only [Conn.PrepareContext, hpc, hcall]
  · simp only [Conn.PrepareContext, hpc, hdone, hcall]
    rfl

/-- What `newStmt` stores, in terms of the two resolvers of stmt.go: the
statement holds the handle, and its strategies are the strategies the
resolvers give for it, wrapped by the middleware of each configured factory. -/
theorem newStmt_wraps_generated_strategy {σ : Type}
    (target : TargetStmt σ) (conn : Conn σ) (query : String)
    (oq : Option (NewStmtQueryContextMiddleware σ × StmtQueryContextMiddleware σ × (σ → σ)))
    (oe : Option (NewStmtExecContextMiddleware σ × StmtExecContextMiddleware σ × (σ → σ)))
    (hq : ∀ c, oq = some c → ∀ t, c.1 query t = some (Except.ok c.2.1, c.2.2 t))
    (he : ∀ c, oe = some c → ∀ t, c.1 query t = some (Except.ok c.2.1, c.2.2 t))
    (ctx : Context σ) (namedArg : List NamedValue) (s t : σ) :
    ∃ stmt,
      newStmt target conn query (oq.map (fun c => c.1)) (oe.map (fun c => c.1)) s
        = some ((some stmt, none),
            (match oe with
              | some c => c.2.2
              | none => fun u => u)
              ((match oq with
                | some c => c.2.2
                | none => fun u => u) s))
      ∧ stmt.target = target
      ∧ stmt.QueryContext ctx namedArg t
        = (match oq with
            | some c => c.2.1 stmt.generateQueryContextFunc
            | none => stmt.generateQueryContextFunc) ctx namedArg t
      ∧ stmt.ExecContext ctx namedArg t
        = (match oe with
            | some c => c.2.1 stmt.generateExecContextFunc
            | none => stmt.generateExecContextFunc) ctx namedArg t := by
  rcases oq with _ | ⟨F, mwq, effq⟩ <;> rcases oe with _ | ⟨G, mwe, effe⟩
  · exact ⟨_, newStmt_ok target conn query none none
      (Stmt.generateQueryContextFunc ⟨target, none, none, conn, query, none, none⟩)
      (Stmt.generateExecContextFunc ⟨target, none, none, conn, query, none, none⟩)
      s s s rfl rfl, rfl, rfl, rfl⟩
  · have hG : ∀ u, G query u = some (Except.ok mwe, effe u) := he _ rfl
    refine ⟨_, newStmt_ok target conn query none (some G)
      (Stmt.generateQueryContextFunc ⟨target, none, none, conn, query, none, none⟩)
      (mwe (Stmt.generateExecContextFunc ⟨target, none, none, conn, query, none, none⟩))
      s s (effe s) rfl ?_, rfl, rfl, rfl⟩
    simp only [newStmtWrap, hG]
  · have hF : ∀ u, F query u = some (Except.ok mwq, effq u) := hq _ rfl
    refine ⟨_, newStmt_ok target conn query (some F) none
      (mwq (Stmt.generateQueryContextFunc ⟨target, none, none, conn, query, none, none⟩))
      (Stmt.generateExecContextFunc ⟨target, none, none, conn, query, none, none⟩)
      s (effq s) (effq s) ?_ rfl, rfl, rfl, rfl⟩
    simp only [newStmtWrap, hF]
  · have hF : ∀ u, F query u = some (Except.ok mwq, effq u) := hq _ rfl
    have hG : ∀ u, G query u = some (Except.ok mwe, effe u) := he _ rfl
    refine ⟨_, newStmt_ok target conn query (some F) (some G)
      (mwq (Stmt.generateQueryContextFunc ⟨target, none, none, conn, query, none, none⟩))
      (mwe (Stmt.generateExecContextFunc ⟨target, none, none, conn, query, none, none⟩))
      s (effq s) (effe (effq s)) ?_ ?_, rfl, rfl, rfl⟩
    · simp only [newStmtWrap, hF]
    · simp only [newStmtWrap, hG]

/-- The query strategy resolved for a statement is the native
context-aware query of its handle, or the fixed-error closure when the handle
has none. -/
theorem Stmt.generateQueryContextFunc_of_handle {σ : Type} (stmt : Stmt σ)
    (b : StmtQueryContextFunc σ)
    (hb : stmt.target.QueryContext = some b
      ∨ (stmt.target.QueryContext = none
        ∧ b = fun _ctx _namedArg u =>
          some ((none, some ⟨"deriver not support stmt QueryContext"⟩), u))) :
    stmt.generateQueryContextFunc = b := by
  rcases hb with h | ⟨h, hfix⟩
  · simp only [Stmt.generateQueryContextFunc, h]
  · simp only [Stmt.generateQueryContextFunc, h, hfix]

/-- The execute strategy resolved for a statement is the native
context-aware execute of its handle, or the fixed-error closure when the
handle has none. -/
theorem Stmt.generateExecContextFunc_of_handle {σ : Type} (stmt : Stmt σ)
    (b : StmtExecContextFunc σ)
    (hb : stmt.target.ExecContext = some b
      ∨ (stmt.target.ExecContext = none
        ∧ b = fun _ctx _namedArg u =>
          some ((none, some ⟨"driver not support stmt ExecContext"⟩), u))) :
    stmt.generateExecContextFunc = b := by
  rcases hb with h | ⟨h, hfix⟩
  · simp only [Stmt.generateExecContextFunc, h]
  · simp only [Stmt.generateExecContextFunc, h, hfix]

/-- C14: `newStmt` with query text `query`.  A configured factory is given
with the middleware it yields on `query` and its effect on the world (`oq` for
the query factory, `oe` for the execute factory; nothing is assumed about a
factory on another text).  Let `bq` be the native context-aware query of the
handle, or the fixed-error closure when the handle has none, and `be` the same
for the execute.  Then `newStmt` succeeds, the world afterwards is the one left
by one call of the query factory on `query` followed by one call of the
execute factory on `query`, the statement holds the handle it was given, and
its `QueryContext` is `mw bq`, or `bq` itself when no query factory is
configured; its `ExecContext` is `mw be`, or `be` itself when no execute
factory is configured. -/
theorem newStmt_wraps_resolved_strategy_once {σ : Type}
    (target : TargetStmt σ) (conn : Conn σ) (query : String)
    (oq : Option (NewStmtQueryContextMiddleware σ × StmtQueryContextMiddleware σ × (σ → σ)))
    (oe : Option (NewStmtExecContextMiddleware σ × StmtExecContextMiddleware σ × (σ → σ)))
    (hq : ∀ c, oq = some c → ∀ t, c.1 query t = some (Except.ok c.2.1, c.2.2 t))
    (he : ∀ c, oe = some c → ∀ t, c.1 query t = some (Except.ok c.2.1, c.2.2 t))
    (bq : StmtQueryContextFunc σ) (be : StmtExecContextFunc σ)
    (hbq : target.QueryContext = some bq
      ∨ (target.QueryContext = none
        ∧ bq = fun _ctx _namedArg u =>
          some ((none, some ⟨"deriver not support stmt QueryContext"⟩), u)))
    (hbe : target.ExecContext = some be
      ∨ (target.ExecContext = none
        ∧ be = fun _ctx _namedArg u =>
          some ((none, some ⟨"driver not support stmt ExecContext"⟩), u)))
    (ctx : Context σ) (namedArg : List NamedValue) (s t : σ) :
    ∃ stmt,
      newStmt target conn query (oq.map (fun c => c.1)) (oe.map (fun c => c.1)) s
        = some ((some stmt, none),
            (match oe with
              | some c => c.2.2
              | none => fun u => u)
              ((match oq with
                | some c => c.2.2
                | none => fun u => u) s))
      ∧ stmt.target = target
      ∧ stmt.QueryContext ctx namedArg t
        = (match oq with
            | some c => c.2.1 bq
            | none => bq) ctx namedArg t
      ∧ stmt.ExecContext ctx namedArg t
        = (match oe with
            | some c => c.2.1 be
            | none => be) ctx namedArg t := by
  obtain ⟨stmt, hnew, htarget, hquery, hexec⟩ :=
    newStmt_wraps_generated_strategy target conn query oq oe hq he ctx namedArg s t
  have hgq : stmt.generateQueryContextFunc = bq :=
    Stmt.generateQueryContextFunc_of_handle stmt bq (by rw [htarget]; exact hbq)
  have hge : stmt.generateExecContextFunc = be :=
    Stmt.generateExecContextFunc_of_handle stmt be (by rw [htarget]; exact hbe)
  rw [hgq] at hquery
  rw [hge] at hexec
  exact ⟨stmt, hnew, htarget, hquery, hexec⟩

/-- Witness of C14: both factories configured and recorded by probes, over
a handle with both context-aware capabilities.  The statement query reaches the
native query of the handle with the parameter renamed by the query middleware;
the statement execute records the execute middleware and then the native
execute of the handle. -/
theorem newStmt_wraps_resolved_strategy_once_witness :
    ((∀ t : Log, (probe 0 (Except.ok nameAge) : NewStmtQueryContextMiddleware Log) sampleQuery t
          = some (Except.ok nameAge, probeEffect 0 sampleQuery t))
        ∧ (∀ t : Log, (probe 1 (Except.ok loggingExecMiddleware)
            : NewStmtExecContextMiddleware Log) sampleQuery t
          = some (Except.ok loggingExecMiddleware, probeEffect 1 sampleQuery t))
        ∧ echoStmt.QueryContext = some echoStmtQuery
        ∧ echoStmt.ExecContext = some echoStmtExec)
      ∧ ∃ stmt, newStmt echoStmt ⟨bareDriver, bareConn, none, none⟩ sampleQuery
            (some (probe 0 (Except.ok nameAge))) (some (probe 1 (Except.ok loggingExecMiddleware)))
            []
          = some ((some stmt, none), [(0, sampleQuery), (1, sampleQuery)])
        ∧ stmt.QueryContext background [⟨"", 1, Value.int64 18⟩] []
          = some ((some ⟨["age"], [[Value.int64 18]]⟩, none), [(3, "stmt query")])
        ∧ stmt.ExecContext background [⟨"", 1, Value.int64 18⟩] []
          = some ((some ⟨0, 1⟩, none), [(15, "exec middleware"), (5, "stmt exec")]) := by
  have hF : ∀ t : Log,
      (probe 0 (Except.ok nameAge) : NewStmtQueryContextMiddleware Log) sampleQuery t
        = some (Except.ok nameAge, probeEffect 0 sampleQuery t) := fun _ => rfl
  have hG : ∀ t : Log,
      (probe 1 (Except.ok loggingExecMiddleware) : NewStmtExecContextMiddleware Log)
        sampleQuery t
        = some (Except.ok loggingExecMiddleware, probeEffect 1 sampleQuery t) := fun _ => rfl
  obtain ⟨stmt, h1, _, h2, h3⟩ := newStmt_wraps_resolved_strategy_once echoStmt
    ⟨bareDriver, bareConn, none, none⟩ sampleQuery
    (some (probe 0 (Except.ok nameAge), nameAge, probeEffect 0 sampleQuery))
    (some (probe 1 (Except.ok loggingExecMiddleware), loggingExecMiddleware,
      probeEffect 1 sampleQuery))
    (fun c hc t => by
      simp only [Option.some.injEq] at hc
      subst hc
      rfl)
    (fun c hc t => by
      simp only [Option.some.injEq] at hc
      subst hc
      rfl)
    echoStmtQuery echoStmtExec (Or.inl rfl) (Or.inl rfl)
    background [⟨"", 1, Value.int64 18⟩] [] []
  exact ⟨⟨hF, hG, rfl, rfl⟩, stmt, h1, h2, h3⟩

/-- Counterexample to C15: a factory that returns an error for the query
text does not make `Conn.PrepareContext` return that error in every case.
With both factories failing, the execute factory would return
`exec factory failed`, yet the error returned is the one of the query factory
and the execute factory is not called (no entry at position 1).  With a target
that refuses to prepare, the query factory would return `test`, yet the error
returned is the one of the prepare and no factory is called. -/
theorem factory_error_is_not_always_returned :
    ((∀ log : Log, (probe 1 (Except.error ⟨"exec factory failed"⟩)
          : NewStmtExecContextMiddleware Log) sampleQuery log
        = some (Except.error ⟨"exec factory failed"⟩, log ++ [(1, sampleQuery)]))
      ∧ Conn.PrepareContext ⟨bothFailingFactoriesDriver, preparingConn, none, none⟩
          background sampleQuery []
        = some ((none, some ⟨"query factory failed"⟩), [(2, sampleQuery), (0, sampleQuery)]))
    ∧ ((∀ log : Log, (probe 0 (Except.error ⟨"test"⟩)
          : NewStmtQueryContextMiddleware Log) sampleQuery log
        = some (Except.error ⟨"test"⟩, log ++ [(0, sampleQuery)]))
      ∧ Conn.PrepareContext ⟨failingQueryFactoryDriver, bareConn, none, none⟩
          background sampleQuery []
        = some ((none, some ⟨"prepare refused"⟩), [])) :=
  ⟨⟨fun _ => rfl, rfl⟩, ⟨fun _ => rfl, rfl⟩⟩

/-- C15 (amended): once the target has prepared the statement (natively, or
through the legacy prepare under a context that is not done), a statement
factory that is called and returns the error `e` makes `Conn.PrepareContext`
return exactly `e` and no statement: the query factory when it is configured,
and the execute factory when the query factory is not configured or has
succeeded. -/
theorem prepare_returns_factory_error {σ : Type} (conn : Conn σ) (ctx : Context σ)
    (query : String) (e : Error) (s s1 : σ) (stmtTarget : TargetStmt σ)
    (hprep : (∃ pc, conn.target.PrepareContext = some pc
          ∧ pc ctx query s = some (Except.ok stmtTarget, s1))
        ∨ (conn.target.PrepareContext = none ∧ ctx.isDone s = false
          ∧ conn.target.Prepare query s = some (Except.ok stmtTarget, s1))) :
    (∀ F s2, conn.driver.MiddlewareGroup.NewStmtQueryContextMiddleware = some F →
        F query s1 = some (Except.error e, s2) →
        conn.PrepareContext ctx query s = some ((none, some e), s2))
      ∧ (∀ G s2, conn.driver.MiddlewareGroup.NewStmtQueryContextMiddleware = none →
        conn.driver.MiddlewareGroup.NewStmtExecContextMiddleware = some G →
        G query s1 = some (Except.error e, s2) →
        conn.PrepareContext ctx query s = some ((none, some e), s2))
      ∧ (∀ F mw sq G s2, conn.driver.MiddlewareGroup.NewStmtQueryContextMiddleware = some F →
        F query s1 = some (Except.ok mw, sq) →
        conn.driver.MiddlewareGroup.NewStmtExecContextMiddleware = some G →
        G query sq = some (Except.error e, s2) →
        conn.PrepareContext ctx query s = some ((none, some e), s2)) := by
  have hnew := PrepareContext_eq_newStmt conn ctx query s s1 stmtTarget hprep
  refine ⟨?_, ?_, ?_⟩
  · intro F s2 hF hcall
    rw [hnew, hF]
    apply newStmt_query_error
    simp only [newStmtWrap, hcall]
  · intro G s2 hnone hG hcall
    rw [hnew, hnone, hG]
    apply newStmt_exec_error stmtTarget conn query none (some G)
      (Stmt.generateQueryContextFunc ⟨stmtTarget, none, none, conn, query, none, none⟩)
      e s1 s1 s2 rfl
    simp only [newStmtWrap, hcall]
  · intro F mw sq G s2 hF hqcall hG hcall
    rw [hnew, hF, hG]
    apply newStmt_exec_error stmtTarget conn query (some F) (some G)
      (mw (Stmt.generateQueryContextFunc ⟨stmtTarget, none, none, conn, query, none, none⟩))
      e s1 sq s2
    · simp only [newStmtWrap, hqcall]
    · simp only [newStmtWrap, hcall]

/-- Witness of C15 (amended): the two prepare-error cases of stmt_test.go over a
target with the legacy prepare.  The log shows the prepare of the target and
the call of the factory. -/
theorem prepare_returns_factory_error_witness :
    ((preparingConn.PrepareContext = none ∧ (background : Context Log).isDone [] = false
          ∧ preparingConn.Prepare sampleQuery []
            = some (Except.ok loggingStmt, [(2, sampleQuery)])))
      ∧ Conn.PrepareContext ⟨failingQueryFactoryDriver, preparingConn, none, none⟩
          background sampleQuery []
        = some ((none, some ⟨"test"⟩), [(2, sampleQuery), (0, sampleQuery)])
      ∧ Conn.PrepareContext ⟨failingExecFactoryDriver, preparingConn, none, none⟩
          background sampleQuery []
        = some ((none, some ⟨"test"⟩), [(2, sampleQuery), (1, sampleQuery)]) := by
  have hprep : preparingConn.PrepareContext = none
      ∧ (background : Context Log).isDone [] = false
      ∧ preparingConn.Prepare sampleQuery []
        = some (Except.ok loggingStmt, [(2, sampleQuery)]) := ⟨rfl, rfl, rfl⟩
  refine ⟨hprep, ?_, ?_⟩
  · exact (prepare_returns_factory_error
      ⟨failingQueryFactoryDriver, preparingConn, none, none⟩ background sampleQuery ⟨"test"⟩
      [] [(2, sampleQuery)] loggingStmt (Or.inr hprep)).1 _ _ rfl rfl
  · exact (prepare_returns_factory_error
      ⟨failingExecFactoryDriver, preparingConn, none, none⟩ background sampleQuery ⟨"test"⟩
      [] [(2, sampleQuery)] loggingStmt (Or.inr hprep)).2.1 _ _ rfl rfl rfl

/-- C16: a statement built by `newStmt` over a handle without the
context-aware query, with no statement query factory configured, answers every
`QueryContext` call with one fixed error and leaves the world as it was,
whatever the methods of the handle and of the connection are: none of them is
called.  The same holds for `ExecContext` when the handle lacks the
context-aware execute and no statement execute factory is configured. -/
theorem stmt_without_capability_is_unsupported {σ : Type}
    (target : TargetStmt σ) (conn : Conn σ) (query : String)
    (nq : Option (NewStmtQueryContextMiddleware σ))
    (ne : Option (NewStmtExecContextMiddleware σ))
    (ctx : Context σ) (namedArg : List NamedValue) (s s1 t : σ) :
    (∀ stmt, target.QueryContext = none →
        newStmt target conn query none ne s = some ((some stmt, none), s1) →
        stmt.QueryContext ctx namedArg t
          = some ((none, some ⟨"deriver not support stmt QueryContext"⟩), t))
      ∧ (∀ stmt, target.ExecContext = none →
        newStmt target conn query nq none s = some ((some stmt, none), s1) →
        stmt.ExecContext ctx namedArg t
          = some ((none, some ⟨"driver not support stmt ExecContext"⟩), t)) := by
  constructor
  · intro stmt hcap hnew
    obtain ⟨qf, ef, s0, hq, _, hstmt⟩ := newStmt_inv target conn query none ne stmt s s1 hnew
    simp only [newStmtWrap, Option.some.injEq, Prod.mk.injEq, Except.ok.injEq] at hq
    subst hstmt
    rw [← hq.1]
    simp only [Stmt.QueryContext, Stmt.generateQueryContextFunc, hcap]
  · intro stmt hcap hnew
    obtain ⟨qf, ef, s0, _, he, hstmt⟩ := newStmt_inv target conn query nq none stmt s s1 hnew
    simp only [newStmtWrap, Option.some.injEq, Prod.mk.injEq, Except.ok.injEq] at he
    subst hstmt
    rw [← he.1]
    simp only [Stmt.ExecContext, Stmt.generateExecContextFunc, hcap]

/-- Witness of C16: a handle with neither context-aware capability and no
factory; the world, here a log with one earlier entry, is left as it was. -/
theorem stmt_without_capability_is_unsupported_witness :
    (plainStmt.QueryContext = none ∧ plainStmt.ExecContext = none)
      ∧ ∃ stmt, newStmt plainStmt ⟨bareDriver, bareConn, none, none⟩ sampleQuery none none []
          = some ((some stmt, none), [])
        ∧ stmt.QueryContext background [⟨"", 1, Value.int64 18⟩] [(2, sampleQuery)]
          = some ((none, some ⟨"deriver not support stmt QueryContext"⟩), [(2, sampleQuery)])
        ∧ stmt.ExecContext background [⟨"", 1, Value.int64 18⟩] [(2, sampleQuery)]
          = some ((none, some ⟨"driver not support stmt ExecContext"⟩), [(2, sampleQuery)]) := by
  have h := stmt_without_capability_is_unsupported plainStmt
    ⟨bareDriver, bareConn, none, none⟩ sampleQuery none none background
    [⟨"", 1, Value.int64 18⟩] [] [] [(2, sampleQuery)]
  exact ⟨⟨rfl, rfl⟩, _, rfl, h.1 _ rfl rfl, h.2 _ rfl rfl⟩

/-- C17 (defect of the code): a wrapped driver without connector-based
opening, opened under the name `foo`.  `Driver.OpenConnector` succeeds, but
the connector it returns carries the empty name, and `Connect` under a context
that is not cancelled calls the by-name open of the wrapped driver with the
empty string (log entry `(9, "")`), not with `foo`. -/
theorem openConnector_forgets_the_name :
    ∃ connector conn,
      Driver.OpenConnector namedOpenDriver "foo" [] = some ((some connector, none), [])
      ∧ connector.name = ""
      ∧ connector.Connect background [] = some ((some conn, none), [(9, "")])
      ∧ connector.Connect background [] ≠ some ((some conn, none), [(9, "foo")]) := by
  refine ⟨⟨"", namedOpenDriver, none⟩, _, rfl, rfl, rfl, ?_⟩
  intro h
  have hlog := congrArg (fun r => r.map (fun p => p.2)) h
  revert hlog
  decide

/-- Counterexample to C18: `BeginTx` under a context that is already
cancelled.  The legacy begin is called all the same (log entry 8), and when it
fails its own error is returned, not the cancellation error. -/
theorem begin_is_called_under_cancelled_context :
    (cancelled : Context Log).isDone [] = true
      ∧ Conn.BeginTx ⟨bareDriver, beginningConn, none, none⟩ cancelled ⟨0, false⟩ []
        = some ((none, some ⟨"context canceled"⟩), [(8, "begin"), (7, "rollback")])
      ∧ Conn.BeginTx ⟨bareDriver, bareConn, none, none⟩ cancelled ⟨0, false⟩ []
        = some ((none, some ⟨"begin refused"⟩), []) :=
  ⟨rfl, rfl, rfl⟩

/-- C18 (amended): under a context that is already cancelled, the legacy
query strategy, the legacy execute strategy, `PrepareContext` over a target
without native prepare, and `Connect` over a connector without native
connector return the error of the context and leave the world as it was: the
legacy call is not made.  `BeginTx` is the exception: it calls the legacy
begin before it polls the context, so when the begin fails its error is
returned although the context is cancelled. -/
theorem cancellation_checked_before_legacy_call {σ : Type} (ctx : Context σ) (s : σ)
    (hdone : ctx.isDone s = true) :
    (∀ (conn : Conn σ) legacy query namedArg,
        conn.target.QueryContext = none → conn.target.Query = some legacy →
        conn.generateQueryContextFunc ctx query namedArg s = some ((none, ctx.Err s), s))
      ∧ (∀ (conn : Conn σ) legacy query namedArg,
        conn.target.ExecContext = none → conn.target.Exec = some legacy →
        conn.generateExecContextFunc ctx query namedArg s = some ((none, ctx.Err s), s))
      ∧ (∀ (conn : Conn σ) query, conn.target.PrepareContext = none →
        conn.PrepareContext ctx query s = some ((none, ctx.Err s), s))
      ∧ (∀ (connector : Connector σ), connector.target = none →
        connector.Connect ctx s = some ((none, ctx.Err s), s))
      ∧ (∀ (conn : Conn σ) opts otx err s1, conn.target.BeginTx = none →
        opts.Isolation = 0 → opts.ReadOnly = false →
        conn.target.Begin s = some ((otx, some err), s1) →
        conn.BeginTx ctx opts s = some ((otx, some err), s1)) := by
  refine ⟨?_, ?_, ?_, ?_, ?_⟩
  · intro conn legacy query namedArg h1 h2
    simp only [Conn.generateQueryContextFunc, h1, h2, Conn.legacyQueryContextFunc, hdone]
    rfl
  · intro conn legacy query namedArg h1 h2
    simp only [Conn.generateExecContextFunc, h1, h2, Conn.legacyExecContextFunc, hdone]
    rfl
  · intro conn query h
    simp only [Conn.PrepareContext, h, hdone]
    rfl
  · intro connector h
    simp only [Connector.Connect, h, hdone]
    rfl
  · intro conn opts otx err s1 h hiso hro hbegin
    simp only [Conn.BeginTx, h, hiso, hro, hbegin]
    cases ctx.Done <;> simp

/-- Witness of C18 (amended): the cancelled context over a legacy-only
target and over a connector without native connector; no call is recorded. -/
theorem cancellation_checked_before_legacy_call_witness :
    (cancelled : Context Log).isDone [] = true
      ∧ Conn.generateQueryContextFunc
          ⟨bareDriver, { bareConn with Query := some echoQuery }, none, none⟩
          cancelled sampleQuery [] []
        = some ((none, some ⟨"context canceled"⟩), [])
      ∧ Conn.PrepareContext ⟨bareDriver, preparingConn, none, none⟩ cancelled sampleQuery []
        = some ((none, some ⟨"context canceled"⟩), [])
      ∧ Connector.Connect ⟨"foo", namedOpenDriver, none⟩ cancelled []
        = some ((none, some ⟨"context canceled"⟩), []) := by
  have h := cancellation_checked_before_legacy_call (cancelled : Context Log) [] rfl
  exact ⟨rfl,
    h.1 ⟨bareDriver, { bareConn with Query := some echoQuery }, none, none⟩ echoQuery
      sampleQuery [] rfl rfl,
    h.2.2.1 ⟨bareDriver, preparingConn, none, none⟩ sampleQuery rfl,
    h.2.2.2.1 ⟨"foo", namedOpenDriver, none⟩ rfl⟩

/-- C19: for a connection whose target lacks the native context-begin,
with default isolation and not read-only: if the legacy begin succeeds with
the transaction `tx` and the context is done in the state the begin has left,
`BeginTx` returns no transaction and the error of the context, and the world
afterwards is the one left by one call of `tx.Rollback`; the value `rolled`
that the rollback returns, an error or not, does not appear in the result. -/
theorem begin_cancelled_after_begin_rolls_back {σ : Type} (conn : Conn σ) (ctx : Context σ)
    (opts : TxOptions) (tx : Tx σ) (rolled : Option Error) (s s1 s2 : σ)
    (hnative : conn.target.BeginTx = none)
    (hiso : opts.Isolation = 0) (hro : opts.ReadOnly = false)
    (hbegin : conn.target.Begin s = some ((some tx, none), s1))
    (hdone : ctx.isDone s1 = true)
    (hrollback : tx.Rollback s1 = some (rolled, s2)) :
    conn.BeginTx ctx opts s = some ((none, ctx.Err s2), s2) := by
  simp only [Conn.BeginTx, hnative, hiso, hro, hbegin]
  cases hd : ctx.Done with
  | none => simp [Context.isDone, hd] at hdone
  | some closed =>
    simp only [Context.isDone, hd] at hdone
    simp [hdone, hrollback]

/-- Witness of C19: the context is cancelled as soon as the begin has run;
the rollback is called once and its error `rollback failed` is dropped. -/
theorem begin_cancelled_after_begin_rolls_back_witness :
    (beginningConn.BeginTx = none
        ∧ beginningConn.Begin [] = some ((some loggingTx, none), [(8, "begin")])
        ∧ cancelledAfterBegin.isDone [] = false
        ∧ cancelledAfterBegin.isDone [(8, "begin")] = true
        ∧ loggingTx.Rollback [(8, "begin")]
          = some (some ⟨"rollback failed"⟩, [(8, "begin"), (7, "rollback")]))
      ∧ Conn.BeginTx ⟨bareDriver, beginningConn, none, none⟩ cancelledAfterBegin ⟨0, false⟩ []
        = some ((none, some ⟨"context canceled"⟩), [(8, "begin"), (7, "rollback")]) := by
  refine ⟨⟨rfl, rfl, by decide, by decide, rfl⟩, ?_⟩
  exact begin_cancelled_after_begin_rolls_back ⟨bareDriver, beginningConn, none, none⟩
    cancelledAfterBegin ⟨0, false⟩ loggingTx (some ⟨"rollback failed"⟩)
    [] [(8, "begin")] [(8, "begin"), (7, "rollback")] rfl rfl rfl rfl (by decide) rfl

/-- C20: for a connection whose target lacks the native context-begin,
`BeginTx` returns an unsupported-option error and leaves the world as it was,
whatever the legacy begin is, when the isolation level is not the default or
the read-only flag is set.  With default isolation and read-only false it
returns exactly what the legacy begin returns, world included, when the
context cannot be cancelled, and also when the context is not done in the
state the begin has left. -/
theorem begin_rejects_options_else_legacy_begin {σ : Type} (conn : Conn σ) (ctx : Context σ)
    (opts : TxOptions) (s : σ) (hnative : conn.target.BeginTx = none) :
    (opts.Isolation ≠ 0 →
        conn.BeginTx ctx opts s
          = some ((none, some ⟨"not support non-default isolation level"⟩), s))
      ∧ (opts.Isolation = 0 → opts.ReadOnly = true →
        conn.BeginTx ctx opts s
          = some ((none, some ⟨"not support read-only transactions"⟩), s))
      ∧ (opts.Isolation = 0 → opts.ReadOnly = false → ctx.Done = none →
        conn.BeginTx ctx opts s = conn.target.Begin s)
      ∧ (opts.Isolation = 0 → opts.ReadOnly = false →
        ∀ r s1, conn.target.Begin s = some (r, s1) → ctx.isDone s1 = false →
        conn.BeginTx ctx opts s = some (r, s1)) := by
  refine ⟨?_, ?_, ?_, ?_⟩
  · intro hiso
    simp only [Conn.BeginTx, hnative]
    rw [if_pos hiso]
  · intro hiso hro
    simp only [Conn.BeginTx, hnative, hiso, hro]
    rfl
  · intro hiso hro hctx
    simp only [Conn.BeginTx, hnative, hiso, hro, hctx]
    cases conn.target.Begin s with
    | none => rfl
    | some r =>
      obtain ⟨⟨otx, oerr⟩, s1⟩ := r
      rfl
  · intro hiso hro r s1 hbegin hdone
    obtain ⟨otx, oerr⟩ := r
    simp only [Conn.BeginTx, hnative, hiso, hro, hbegin]
    cases hd : ctx.Done with
    | none => rfl
    | some closed =>
      simp only [Context.isDone, hd] at hdone
      cases oerr with
      | some err => rfl
      | none => simp [hdone]

/-- Witness of C20: a non-default isolation level, a read-only request, and
a default request under a context that cannot be cancelled. -/
theorem begin_rejects_options_else_legacy_begin_witness :
    (beginningConn.BeginTx = none ∧ (⟨2, false⟩ : TxOptions).Isolation ≠ 0
        ∧ (background : Context Log).Done = none
        ∧ (background : Context Log).isDone [(8, "begin")] = false)
      ∧ Conn.BeginTx ⟨bareDriver, beginningConn, none, none⟩ background ⟨2, false⟩ []
        = some ((none, some ⟨"not support non-default isolation level"⟩), [])
      ∧ Conn.BeginTx ⟨bareDriver, beginningConn, none, none⟩ background ⟨0, true⟩ []
        = some ((none, some ⟨"not support read-only transactions"⟩), [])
      ∧ Conn.BeginTx ⟨bareDriver, beginningConn, none, none⟩ background ⟨0, false⟩ []
        = beginningConn.Begin []
      ∧ Conn.BeginTx ⟨bareDriver, beginningConn, none, none⟩ background ⟨0, false⟩ []
        = some ((some loggingTx, none), [(8, "begin")]) := by
  refine ⟨⟨rfl, by decide, rfl, rfl⟩, ?_, ?_, ?_, ?_⟩
  · exact (begin_rejects_options_else_legacy_begin ⟨bareDriver, beginningConn, none, none⟩
      background ⟨2, false⟩ [] rfl).1 (by decide)
  · exact (begin_rejects_options_else_legacy_begin ⟨bareDriver, beginningConn, none, none⟩
      background ⟨0, true⟩ [] rfl).2.1 rfl rfl
  · exact (begin_rejects_options_else_legacy_begin ⟨bareDriver, beginningConn, none, none⟩
      background ⟨0, false⟩ [] rfl).2.2.1 rfl rfl rfl
  · exact (begin_rejects_options_else_legacy_begin ⟨bareDriver, beginningConn, none, none⟩
      background ⟨0, false⟩ [] rfl).2.2.2 rfl rfl _ _ rfl rfl

/-- C21: for a connection whose target implements the native
context-begin, `BeginTx` is exactly the call of the native begin with the same
context and the same options, whatever the options are: nothing is rejected,
and the outcome and the world do not depend on the legacy begin of the target,
which is not called, nor is any rollback. -/
theorem native_begin_is_delegated {σ : Type} (conn : Conn σ)
    (native : Context σ → TxOptions → M σ (Option (Tx σ) × Option Error))
    (hnative : conn.target.BeginTx = some native)
    (ctx : Context σ) (opts : TxOptions) (s : σ) :
    conn.BeginTx ctx opts s = native ctx opts s := by
  simp only [Conn.BeginTx, hnative]

/-- Witness of C21: a read-only request at a non-default isolation level,
under a cancelled context; only the native begin is recorded. -/
theorem native_begin_is_delegated_witness :
    ({ beginningConn with BeginTx := some loggingBeginTx } : TargetConn Log).BeginTx
        = some loggingBeginTx
      ∧ Conn.BeginTx ⟨bareDriver, { beginningConn with BeginTx := some loggingBeginTx },
          none, none⟩ cancelled ⟨4, true⟩ []
        = some ((some loggingTx, none), [(13, "begin tx")]) := by
  refine ⟨rfl, ?_⟩
  rw [native_begin_is_delegated
    ⟨bareDriver, { beginningConn with BeginTx := some loggingBeginTx }, none, none⟩
    loggingBeginTx rfl]
  rfl

/-- C22: for a target with the native ping, `Ping` is exactly the call of
the native ping, and the query strategy is not used.  For a target without it,
`Ping` calls `QueryContext` of the connection, that is the stored strategy,
with the constant select, drops the rows and returns exactly the error of that
query, nil when the query succeeded; for a connection built by `newConn` the
stored strategy is the resolved strategy wrapped by the query middleware. -/
theorem ping_is_native_or_constant_select {σ : Type} (conn : Conn σ) (ctx : Context σ) (s : σ) :
    (∀ pinger, conn.target.Ping = some pinger → conn.Ping ctx s = pinger ctx s)
      ∧ (conn.target.Ping = none →
        conn.Ping ctx s
          = (conn.QueryContext ctx "SELECT ?" [⟨"", 0, Value.int 1⟩] s).map
              (fun r => (r.1.2, r.2)))
      ∧ (∀ target dri oq oe, target.Ping = none →
        (newConn target dri oq oe).Ping ctx s
          = ((match oq with
              | some mw => mw (Conn.generateQueryContextFunc ⟨dri, target, none, none⟩)
              | none => Conn.generateQueryContextFunc ⟨dri, target, none, none⟩)
              ctx "SELECT ?" [⟨"", 0, Value.int 1⟩] s).map
                (fun (r : (Option Rows × Option Error) × σ) => (r.1.2, r.2))) := by
  have hemul : ∀ c : Conn σ, c.target.Ping = none →
      c.Ping ctx s = (c.QueryContext ctx "SELECT ?" [⟨"", 0, Value.int 1⟩] s).map
        (fun r => (r.1.2, r.2)) := by
    intro c hc
    simp only [Conn.Ping, hc]
    cases c.QueryContext ctx "SELECT ?" [⟨"", 0, Value.int 1⟩] s with
    | none => rfl
    | some r =>
      obtain ⟨⟨rows, err⟩, s1⟩ := r
      rfl
  refine ⟨?_, hemul conn, ?_⟩
  · intro pinger h
    simp only [Conn.Ping, h]
  · intro target dri oq oe h
    rw [hemul (newConn target dri oq oe) h]
    cases oq <;> rfl

/-- Witness of C22: a target with the native ping, and a target with the
native query only, behind the short-circuit middleware and without middleware. -/
theorem ping_is_native_or_constant_select_witness :
    (({ bareConn with Ping := some loggingPing } : TargetConn Log).Ping = some loggingPing
        ∧ ({ bareConn with QueryContext := some echoQueryContext } : TargetConn Log).Ping
          = none)
      ∧ Conn.Ping (newConn { bareConn with Ping := some loggingPing } bareDriver none none)
          background []
        = some (none, [(12, "ping")])
      ∧ Conn.Ping (newConn { bareConn with QueryContext := some echoQueryContext } bareDriver
          none none) background []
        = some (none, [(0, "SELECT ?")])
      ∧ Conn.Ping (newConn { bareConn with QueryContext := some echoQueryContext } bareDriver
          (some (shortCircuitQuery ⟨"test"⟩)) none) background []
        = some (some ⟨"test"⟩, []) := by
  refine ⟨⟨rfl, rfl⟩, ?_, ?_, ?_⟩
  · exact (ping_is_native_or_constant_select
      (newConn { bareConn with Ping := some loggingPing } bareDriver none none)
      background []).1 loggingPing rfl
  · exact (ping_is_native_or_constant_select
      (newConn { bareConn with QueryContext := some echoQueryContext } bareDriver none none)
      background []).2.2 _ bareDriver none none rfl
  · exact (ping_is_native_or_constant_select
      (newConn { bareConn with QueryContext := some echoQueryContext } bareDriver none none)
      background []).2.2 _ bareDriver (some (shortCircuitQuery ⟨"test"⟩)) none rfl

/-- C23: `Conn.Prepare`, `Conn.Begin`, `Stmt.Query` and `Stmt.Exec` return,
for every receiver and every input, no value together with one and the same
fixed error, and leave the world as it was, whatever the wrapped target is: it
is not called. -/
theorem legacy_entry_points_are_unsupported {σ : Type} (conn : Conn σ) (stmt : Stmt σ)
    (query : String) (args : List Value) (s : σ) :
    conn.Prepare query s = some ((none, some ⟨"Please update Go to 1.8+ version"⟩), s)
      ∧ conn.Begin s = some ((none, some ⟨"Please update Go to 1.8+ version"⟩), s)
      ∧ stmt.Query args s = some ((none, some ⟨"Please update Go to 1.8+ version"⟩), s)
      ∧ stmt.Exec args s = some ((none, some ⟨"Please update Go to 1.8+ version"⟩), s) :=
  ⟨rfl, rfl, rfl, rfl⟩

/-- C24: `Stmt.CheckNamedValue` is exactly the call of the checker of the
statement handle when the handle has one, also when the connection handle has
one too; otherwise exactly the call of the checker of the connection handle
when that has one; otherwise exactly the default checker.  The outcome and the
world are those of the selected checker alone, so no other checker is called. -/
theorem checkNamedValue_priority {σ : Type} (convertValue : Value → Value × Option Error)
    (stmt : Stmt σ) (nv : NamedValue) (s : σ) :
    (∀ checker, stmt.target.CheckNamedValue = some checker →
        stmt.CheckNamedValue convertValue nv s = checker nv s)
      ∧ (∀ checker, stmt.target.CheckNamedValue = none →
        stmt.conn.target.CheckNamedValue = some checker →
        stmt.CheckNamedValue convertValue nv s = checker nv s)
      ∧ (stmt.target.CheckNamedValue = none → stmt.conn.target.CheckNamedValue = none →
        stmt.CheckNamedValue convertValue nv s = defaultNamedValueChecker convertValue nv s
        ∧ stmt.CheckNamedValue convertValue nv s
          = some (({ nv with Value := (convertValue nv.Value).1 }, (convertValue nv.Value).2),
              s)) := by
  refine ⟨?_, ?_, ?_⟩
  · intro checker h
    simp only [Stmt.CheckNamedValue, h]
  · intro checker h1 h2
    simp only [Stmt.CheckNamedValue, h1, h2]
  · intro h1 h2
    simp only [Stmt.CheckNamedValue, h1, h2]
    exact ⟨trivial, rfl⟩

/-- Witness of C24: a statement handle and a connection handle that both
have a checker, the connection handle alone, and neither. -/
theorem checkNamedValue_priority_witness :
    (({ plainStmt with CheckNamedValue := some stmtChecker } : TargetStmt Log).CheckNamedValue
          = some stmtChecker
        ∧ plainStmt.CheckNamedValue = none
        ∧ ({ bareConn with CheckNamedValue := some connChecker } : TargetConn Log).CheckNamedValue
          = some connChecker
        ∧ bareConn.CheckNamedValue = none)
      ∧ Stmt.CheckNamedValue sampleConvertValue
          ⟨{ plainStmt with CheckNamedValue := some stmtChecker }, none, none,
            ⟨bareDriver, { bareConn with CheckNamedValue := some connChecker }, none, none⟩,
            sampleQuery, none, none⟩ ⟨"", 1, Value.int 18⟩ []
        = some ((⟨"stmt", 1, Value.int 18⟩, none), [(10, "stmt checker")])
      ∧ Stmt.CheckNamedValue sampleConvertValue
          ⟨plainStmt, none, none,
            ⟨bareDriver, { bareConn with CheckNamedValue := some connChecker }, none, none⟩,
            sampleQuery, none, none⟩ ⟨"", 1, Value.int 18⟩ []
        = some ((⟨"conn", 1, Value.int 18⟩, none), [(11, "conn checker")])
      ∧ Stmt.CheckNamedValue sampleConvertValue
          ⟨plainStmt, none, none, ⟨bareDriver, bareConn, none, none⟩, sampleQuery, none, none⟩
          ⟨"", 1, Value.int 18⟩ []
        = some ((⟨"", 1, Value.int64 18⟩, none), []) := by
  refine ⟨⟨rfl, rfl, rfl, rfl⟩, ?_, ?_, ?_⟩
  · rw [(checkNamedValue_priority sampleConvertValue
      ⟨{ plainStmt with CheckNamedValue := some stmtChecker }, none, none,
        ⟨bareDriver, { bareConn with CheckNamedValue := some connChecker }, none, none⟩,
        sampleQuery, none, none⟩ ⟨"", 1, Value.int 18⟩ []).1 stmtChecker rfl]
    rfl
  · rw [(checkNamedValue_priority sampleConvertValue
      ⟨plainStmt, none, none,
        ⟨bareDriver, { bareConn with CheckNamedValue := some connChecker }, none, none⟩,
        sampleQuery, none, none⟩ ⟨"", 1, Value.int 18⟩ []).2.1 connChecker rfl rfl]
    rfl
  · exact ((checkNamedValue_priority sampleConvertValue
      ⟨plainStmt, none, none, ⟨bareDriver, bareConn, none, none⟩, sampleQuery, none, none⟩
      ⟨"", 1, Value.int 18⟩ []).2.2 rfl rfl).2

/-- C25: when the prepare of the target (the native context-prepare if the
target has it, otherwise the legacy prepare under a context that is not done)
returns the error `e`, `Conn.PrepareContext` returns exactly `e` and no
statement, and the world is the one the prepare left, whatever statement
factories are configured: none is called.  When the prepare succeeds,
`Conn.PrepareContext` is `newStmt` on the handle returned, with the same query
text. -/
theorem prepare_error_is_returned_unchanged {σ : Type} (conn : Conn σ) (ctx : Context σ)
    (query : String) (s : σ) :
    (∀ pc e s1, conn.target.PrepareContext = some pc →
        pc ctx query s = some (Except.error e, s1) →
        conn.PrepareContext ctx query s = some ((none, some e), s1))
      ∧ (∀ e s1, conn.target.PrepareContext = none → ctx.isDone s = false →
        conn.target.Prepare query s = some (Except.error e, s1) →
        conn.PrepareContext ctx query s = some ((none, some e), s1))
      ∧ (∀ stmtTarget s1,
        ((∃ pc, conn.target.PrepareContext = some pc
            ∧ pc ctx query s = some (Except.ok stmtTarget, s1))
          ∨ (conn.target.PrepareContext = none ∧ ctx.isDone s = false
            ∧ conn.target.Prepare query s = some (Except.ok stmtTarget, s1))) →
        conn.PrepareContext ctx query s
          = newStmt stmtTarget conn query
              conn.driver.MiddlewareGroup.NewStmtQueryContextMiddleware
              conn.driver.MiddlewareGroup.NewStmtExecContextMiddleware s1) := by
  refine ⟨?_, ?_, ?_⟩
  · intro pc e s1 hpc hcall
    simp only [Conn.PrepareContext, hpc, hcall]
  · intro e s1 hpc hdone hcall
    simp only [Conn.PrepareContext, hpc, hdone, hcall]
    rfl
  · intro stmtTarget s1 hprep
    exact PrepareContext_eq_newStmt conn ctx query s s1 stmtTarget hprep

/-- Witness of C25: a native prepare that refuses and a legacy prepare that
refuses, both with two statement factories configured, none of which is
recorded; and a legacy prepare that succeeds. -/
theorem prepare_error_is_returned_unchanged_witness :
    (bareConn.PrepareContext = none ∧ (background : Context Log).isDone [] = false
        ∧ bareConn.Prepare sampleQuery [] = some (Except.error ⟨"prepare refused"⟩, [])
        ∧ preparingConn.Prepare sampleQuery []
          = some (Except.ok loggingStmt, [(2, sampleQuery)]))
      ∧ Conn.PrepareContext ⟨bothFactoriesDriver, refusingPrepareConn, none, none⟩
          background sampleQuery []
        = some ((none, some ⟨"syntax error"⟩), [(2, sampleQuery)])
      ∧ Conn.PrepareContext ⟨bothFactoriesDriver, bareConn, none, none⟩
          background sampleQuery []
        = some ((none, some ⟨"prepare refused"⟩), [])
      ∧ Conn.PrepareContext ⟨bothFactoriesDriver, preparingConn, none, none⟩
          background sampleQuery []
        = newStmt loggingStmt ⟨bothFactoriesDriver, preparingConn, none, none⟩ sampleQuery
            (some (probe 0 (Except.ok nameAge))) (some (probe 1 (Except.ok (fun next => next))))
            [(2, sampleQuery)] := by
  refine ⟨⟨rfl, rfl, rfl, rfl⟩, ?_, ?_, ?_⟩
  · exact (prepare_error_is_returned_unchanged
      ⟨bothFactoriesDriver, refusingPrepareConn, none, none⟩ background sampleQuery []).1
      _ _ _ rfl rfl
  · exact (prepare_error_is_returned_unchanged
      ⟨bothFactoriesDriver, bareConn, none, none⟩ background sampleQuery []).2.1
      _ _ rfl rfl rfl
  · exact (prepare_error_is_returned_unchanged
      ⟨bothFactoriesDriver, preparingConn, none, none⟩ background sampleQuery []).2.2
      loggingStmt [(2, sampleQuery)] (Or.inr ⟨rfl, rfl, rfl⟩)

/-- C26 (defect of the code): `Ping` over a target without the native ping
whose query records the ordinal and the name of every parameter it receives.
The only parameter arrives with ordinal 0, not with its 1-based position 1. -/
theorem ping_emulation_passes_ordinal_zero :
    ({ bareConn with QueryContext := some ordinalRecordingQueryContext }
        : TargetConn Log).Ping = none
      ∧ Conn.Ping
          (newConn { bareConn with QueryContext := some ordinalRecordingQueryContext }
            bareDriver none none) background []
        = some (none, [(0, "")])
      ∧ Conn.Ping
          (newConn { bareConn with QueryContext := some ordinalRecordingQueryContext }
            bareDriver none none) background []
        ≠ some (none, [(1, "")]) := by
  refine ⟨rfl, rfl, ?_⟩
  decide

/-- C27: chain building turns list concatenation into composition of
middleware: the chain of `a ++ b` applied to `f` behaves as the chain of `a`
applied to the chain of `b` applied to `f`; a chain placed as one element
inside a list is equivalent to the flattened list; the chain of a single
middleware is that middleware. -/
theorem chain_of_append {σ : Type} (a b c : List (QueryContextMiddleware σ))
    (m : QueryContextMiddleware σ) (f : QueryContextFunc σ)
    (ctx : Context σ) (query : String) (namedArg : List NamedValue) (s : σ) :
    QueryContextMiddlewareChain (a ++ b) f ctx query namedArg s
        = QueryContextMiddlewareChain a (QueryContextMiddlewareChain b f) ctx query namedArg s
      ∧ QueryContextMiddlewareChain (a ++ [QueryContextMiddlewareChain b] ++ c) f
          ctx query namedArg s
        = QueryContextMiddlewareChain (a ++ b ++ c) f ctx query namedArg s
      ∧ QueryContextMiddlewareChain [m] f ctx query namedArg s = m f ctx query namedArg s := by
  have hfold : ∀ (l : List (QueryContextMiddleware σ)) (g : QueryContextFunc σ),
      QueryContextMiddlewareChain l g = l.foldr (fun mw next => mw next) g := by
    intro l g
    simp only [QueryContextMiddlewareChain]
    rw [chainLoop_eq_foldr]
  refine ⟨?_, ?_, ?_⟩
  · rw [hfold, hfold, hfold, List.foldr_append]
  · rw [hfold, hfold]
    simp only [List.foldr_append, List.foldr_cons, List.foldr_nil]
    rw [hfold]
  · rw [hfold]
    rfl

/-- Counterexample to C28: connection-level queries over a target with no
query capability on which the statement factories are not both called.  When
the target refuses to prepare, and when the context is cancelled before the
legacy prepare, no factory is called (empty log); when the query factory
fails, the execute factory is not called (no entry at position 1). -/
theorem statement_factories_not_called_on_every_query :
    Conn.QueryContext (newConn bareConn bothFactoriesDriver none none)
        background sampleQuery [⟨"", 1, Value.int64 18⟩] []
      = some ((none, some ⟨"prepare refused"⟩), [])
    ∧ Conn.QueryContext (newConn preparingConn bothFactoriesDriver none none)
        cancelled sampleQuery [⟨"", 1, Value.int64 18⟩] []
      = some ((none, some ⟨"context canceled"⟩), [])
    ∧ Conn.QueryContext (newConn preparingConn bothFailingFactoriesDriver none none)
        background sampleQuery [⟨"", 1, Value.int64 18⟩] []
      = some ((none, some ⟨"query factory failed"⟩), [(2, sampleQuery), (0, sampleQuery)]) :=
  ⟨rfl, rfl, rfl⟩

/-- C28 (amended): a connection built by `newConn` over a target with
neither the native nor the legacy query, with both statement factories `F`
(query) and `G` (execute) configured.  `QueryContext` of the connection is the
prepare strategy, wrapped by the connection query middleware when there is
one.  On every call on which the target has prepared the query text, that
strategy calls `F` on the query text, and `G` on the query text when `F` has
succeeded; when both succeed it returns exactly what `mwq b` returns on the
context and the parameters, `mwq` being the middleware `F` built and `b` the
native context-aware query of the handle, or the fixed-error closure when the
handle has none, and then closes the statement; when `F` fails, or `G` fails
after `F` succeeded, it returns the error of that factory. -/
theorem connection_query_runs_statement_factories {σ : Type}
    (target : TargetConn σ) (dri : Driver σ)
    (oq : Option (QueryContextMiddleware σ)) (oe : Option (ExecContextMiddleware σ))
    (F : NewStmtQueryContextMiddleware σ) (G : NewStmtExecContextMiddleware σ)
    (hnative : target.QueryContext = none) (hlegacy : target.Query = none)
    (hF : dri.MiddlewareGroup.NewStmtQueryContextMiddleware = some F)
    (hG : dri.MiddlewareGroup.NewStmtExecContextMiddleware = some G)
    (ctx : Context σ) (query : String) (namedArg : List NamedValue) (s s1 : σ)
    (stmtTarget : TargetStmt σ)
    (hprep : (∃ pc, target.PrepareContext = some pc
          ∧ pc ctx query s = some (Except.ok stmtTarget, s1))
        ∨ (target.PrepareContext = none ∧ ctx.isDone s = false
          ∧ target.Prepare query s = some (Except.ok stmtTarget, s1)))
    (b : StmtQueryContextFunc σ)
    (hb : stmtTarget.QueryContext = some b
      ∨ (stmtTarget.QueryContext = none
        ∧ b = fun _ctx _namedArg u =>
          some ((none, some ⟨"deriver not support stmt QueryContext"⟩), u))) :
    (∀ c q a t, (newConn target dri oq oe).QueryContext c q a t
        = (match oq with
            | some mw => mw (Conn.prepareQueryContextFunc ⟨dri, target, none, none⟩)
            | none => Conn.prepareQueryContextFunc ⟨dri, target, none, none⟩) c q a t)
      ∧ (∀ mwq s2 mwe s3 r s4 closed s5,
        F query s1 = some (Except.ok mwq, s2) → G query s2 = some (Except.ok mwe, s3) →
        mwq b ctx namedArg s3 = some (r, s4) →
        stmtTarget.Close s4 = some (closed, s5) →
        Conn.prepareQueryContextFunc ⟨dri, target, none, none⟩ ctx query namedArg s
          = some (r, s5))
      ∧ (∀ e s2, F query s1 = some (Except.error e, s2) →
        Conn.prepareQueryContextFunc ⟨dri, target, none, none⟩ ctx query namedArg s
          = some ((none, some e), s2))
      ∧ (∀ mwq s2 e s3, F query s1 = some (Except.ok mwq, s2) →
        G query s2 = some (Except.error e, s3) →
        Conn.prepareQueryContextFunc ⟨dri, target, none, none⟩ ctx query namedArg s
          = some ((none, some e), s3)) := by
  have hnew : Conn.PrepareContext ⟨dri, target, none, none⟩ ctx query s
      = newStmt stmtTarget ⟨dri, target, none, none⟩ query (some F) (some G) s1 := by
    rw [PrepareContext_eq_newStmt ⟨dri, target, none, none⟩ ctx query s s1 stmtTarget hprep]
    simp only [hF, hG]
  have hbase : Stmt.generateQueryContextFunc
      ⟨stmtTarget, none, none, ⟨dri, target, none, none⟩, query, none, none⟩ = b :=
    Stmt.generateQueryContextFunc_of_handle _ b hb
  refine ⟨?_, ?_, ?_, ?_⟩
  · intro c q a t
    have hgen : Conn.generateQueryContextFunc ⟨dri, target, none, none⟩
        = Conn.prepareQueryContextFunc ⟨dri, target, none, none⟩ := by
      simp only [Conn.generateQueryContextFunc, hnative, hlegacy]
    rw [← hgen]
    cases oq <;> rfl
  · intro mwq s2 mwe s3 r s4 closed s5 hFq hGq hquery hclose
    have hok := newStmt_ok stmtTarget ⟨dri, target, none, none⟩ query (some F) (some G)
      (mwq b)
      (mwe (Stmt.generateExecContextFunc
        ⟨stmtTarget, none, none, ⟨dri, target, none, none⟩, query, none, none⟩))
      s1 s2 s3 (by simp only [newStmtWrap, hFq, hbase]) (by simp only [newStmtWrap, hGq])
    simp only [Conn.prepareQueryContextFunc, hnew, hok, Stmt.QueryContext, Stmt.Close, hquery,
      hclose]
  · intro e s2 hFq
    have herr := newStmt_query_error stmtTarget ⟨dri, target, none, none⟩ query (some F)
      (some G) e s1 s2 (by simp only [newStmtWrap, hFq])
    simp only [Conn.prepareQueryContextFunc, hnew, herr]
  · intro mwq s2 e s3 hFq hGq
    have herr := newStmt_exec_error stmtTarget ⟨dri, target, none, none⟩ query (some F)
      (some G)
      (mwq (Stmt.generateQueryContextFunc
        ⟨stmtTarget, none, none, ⟨dri, target, none, none⟩, query, none, none⟩))
      e s1 s2 s3 (by simp only [newStmtWrap, hFq]) (by simp only [newStmtWrap, hGq])
    simp only [Conn.prepareQueryContextFunc, hnew, herr]

/-- Witness of C28 (amended): a target whose legacy prepare hands out a
statement with the native query, and both factories configured.  One
connection-level query records the prepare, the two factories, the native
statement query, which receives the parameter renamed by the statement query
middleware, and the close. -/
theorem connection_query_runs_statement_factories_witness :
    (({ bareConn with
          Prepare := fun query log => some (Except.ok echoStmt, log ++ [(2, query)]) }
          : TargetConn Log).Prepare sampleQuery []
          = some (Except.ok echoStmt, [(2, sampleQuery)])
        ∧ (background : Context Log).isDone [] = false
        ∧ echoStmt.QueryContext = some echoStmtQuery)
      ∧ Conn.QueryContext
          (newConn { bareConn with
              Prepare := fun query log => some (Except.ok echoStmt, log ++ [(2, query)]) }
            bothFactoriesDriver none none)
          background sampleQuery [⟨"", 1, Value.int64 18⟩] []
        = some ((some ⟨["age"], [[Value.int64 18]]⟩, none),
            [(2, sampleQuery), (0, sampleQuery), (1, sampleQuery), (3, "stmt query"),
              (4, "close")]) := by
  have h := connection_query_runs_statement_factories
    { bareConn with
      Prepare := fun query log => some (Except.ok echoStmt, log ++ [(2, query)]) }
    bothFactoriesDriver
    none none (probe 0 (Except.ok nameAge)) (probe 1 (Except.ok (fun next => next)))
    rfl rfl rfl rfl background sampleQuery [⟨"", 1, Value.int64 18⟩] [] [(2, sampleQuery)]
    echoStmt (Or.inr ⟨rfl, rfl, rfl⟩) echoStmtQuery (Or.inl rfl)
  refine ⟨⟨rfl, rfl, rfl⟩, ?_⟩
  rw [h.1]
  exact h.2.1 _ _ _ _ _ _ _ _ rfl rfl rfl rfl

/-- C29: when the target has prepared the statement and a statement factory
that is then called fails with `e` (the query factory, or the execute factory
when the query factory is absent or has succeeded), `Conn.PrepareContext`
returns `e` and no statement, and the world is the one the failing factory
left: `Close` of the handle the target returned is not called.  The
construction gives the same outcome and the same world whatever that `Close`
is. -/
theorem failed_factory_leaves_statement_open {σ : Type} (conn : Conn σ) (ctx : Context σ)
    (query : String) (e : Error) (s s1 s2 : σ) (stmtTarget : TargetStmt σ)
    (close2 : M σ (Option Error))
    (hprep : (∃ pc, conn.target.PrepareContext = some pc
          ∧ pc ctx query s = some (Except.ok stmtTarget, s1))
        ∨ (conn.target.PrepareContext = none ∧ ctx.isDone s = false
          ∧ conn.target.Prepare query s = some (Except.ok stmtTarget, s1)))
    (hfail : (∃ F, conn.driver.MiddlewareGroup.NewStmtQueryContextMiddleware = some F
          ∧ F query s1 = some (Except.error e, s2))
        ∨ (∃ G sq, conn.driver.MiddlewareGroup.NewStmtExecContextMiddleware = some G
          ∧ ((conn.driver.MiddlewareGroup.NewStmtQueryContextMiddleware = none ∧ sq = s1)
            ∨ ∃ F mw, conn.driver.MiddlewareGroup.NewStmtQueryContextMiddleware = some F
              ∧ F query s1 = some (Except.ok mw, sq))
          ∧ G query sq = some (Except.error e, s2))) :
    conn.PrepareContext ctx query s = some ((none, some e), s2)
      ∧ newStmt { stmtTarget with Close := close2 } conn query
          conn.driver.MiddlewareGroup.NewStmtQueryContextMiddleware
          conn.driver.MiddlewareGroup.NewStmtExecContextMiddleware s1
        = some ((none, some e), s2) := by
  have hany : ∀ handle : TargetStmt σ,
      newStmt handle conn query
          conn.driver.MiddlewareGroup.NewStmtQueryContextMiddleware
          conn.driver.MiddlewareGroup.NewStmtExecContextMiddleware s1
        = some ((none, some e), s2) := by
    intro handle
    rcases hfail with ⟨F, hF, hcall⟩ | ⟨G, sq, hG, hstage, hcall⟩
    · rw [hF]
      apply newStmt_query_error
      simp only [newStmtWrap, hcall]
    · rcases hstage with ⟨hnone, hsq⟩ | ⟨F, mw, hF, hqcall⟩
      · subst hsq
        rw [hnone, hG]
        apply newStmt_exec_error handle conn query none (some G)
          (Stmt.generateQueryContextFunc ⟨handle, none, none, conn, query, none, none⟩)
          e sq sq s2 rfl
        simp only [newStmtWrap, hcall]
      · rw [hF, hG]
        apply newStmt_exec_error handle conn query (some F) (some G)
          (mw (Stmt.generateQueryContextFunc ⟨handle, none, none, conn, query, none, none⟩))
          e s1 sq s2
        · simp only [newStmtWrap, hqcall]
        · simp only [newStmtWrap, hcall]
  refine ⟨?_, hany _⟩
  rw [PrepareContext_eq_newStmt conn ctx query s s1 stmtTarget hprep]
  exact hany stmtTarget

/-- Witness of C29: the target prepares a statement whose `Close` would be
recorded at position 4; the query factory then fails.  The log holds the
prepare and the factory call only. -/
theorem failed_factory_leaves_statement_open_witness :
    ((preparingConn.PrepareContext = none ∧ (background : Context Log).isDone [] = false
          ∧ preparingConn.Prepare sampleQuery []
            = some (Except.ok loggingStmt, [(2, sampleQuery)]))
        ∧ loggingStmt.Close [(2, sampleQuery), (0, sampleQuery)]
          = some (none, [(2, sampleQuery), (0, sampleQuery), (4, "close")]))
      ∧ Conn.PrepareContext ⟨failingQueryFactoryDriver, preparingConn, none, none⟩
          background sampleQuery []
        = some ((none, some ⟨"test"⟩), [(2, sampleQuery), (0, sampleQuery)]) := by
  have hprep : preparingConn.PrepareContext = none
      ∧ (background : Context Log).isDone [] = false
      ∧ preparingConn.Prepare sampleQuery []
        = some (Except.ok loggingStmt, [(2, sampleQuery)]) := ⟨rfl, rfl, rfl⟩
  refine ⟨⟨hprep, rfl⟩, ?_⟩
  exact (failed_factory_leaves_statement_open
    ⟨failingQueryFactoryDriver, preparingConn, none, none⟩ background sampleQuery ⟨"test"⟩
    [] [(2, sampleQuery)] [(2, sampleQuery), (0, sampleQuery)] loggingStmt loggingStmt.Close
    (Or.inr hprep) (Or.inl ⟨probe 0 (Except.error ⟨"test"⟩), rfl, rfl⟩)).1

/-- C30: for a connection whose target lacks the native context-begin, with
default isolation and read-only false: when the legacy begin returns the error
`e`, `BeginTx` returns `e` together with the transaction value the begin
returned, and the world is the one the begin left, for every context,
cancelled or not: no rollback is called and the error of the context is not
reported. -/
theorem begin_error_is_returned_as_is {σ : Type} (conn : Conn σ) (ctx : Context σ)
    (opts : TxOptions) (otx : Option (Tx σ)) (e : Error) (s s1 : σ)
    (hnative : conn.target.BeginTx = none)
    (hiso : opts.Isolation = 0) (hro : opts.ReadOnly = false)
    (hbegin : conn.target.Begin s = some ((otx, some e), s1)) :
    conn.BeginTx ctx opts s = some ((otx, some e), s1) := by
  simp only [Conn.BeginTx, hnative, hiso, hro, hbegin]
  cases ctx.Done <;> rfl

/-- Witness of C30: a legacy begin that returns a transaction together with
an error, under a cancelled context; the rollback, which would be recorded at
position 7, is not called. -/
theorem begin_error_is_returned_as_is_witness :
    (({ bareConn with
          Begin := fun log => some ((some loggingTx, some ⟨"begin failed"⟩),
            log ++ [(8, "begin")]) } : TargetConn Log).BeginTx = none
        ∧ (cancelled : Context Log).isDone [(8, "begin")] = true)
      ∧ (Conn.BeginTx
          ⟨bareDriver,
            { bareConn with
              Begin := fun log => some ((some loggingTx, some ⟨"begin failed"⟩),
                log ++ [(8, "begin")]) }, none, none⟩ cancelled ⟨0, false⟩ []).map
          (fun r => (r.1.2, r.2))
        = some (some ⟨"begin failed"⟩, [(8, "begin")]) := by
  refine ⟨⟨rfl, rfl⟩, ?_⟩
  rw [begin_error_is_returned_as_is
    ⟨bareDriver,
      { bareConn with
        Begin := fun log => some ((some loggingTx, some ⟨"begin failed"⟩),
          log ++ [(8, "begin")]) }, none, none⟩ cancelled ⟨0, false⟩ (some loggingTx)
    ⟨"begin failed"⟩ [] [(8, "begin")] rfl rfl rfl rfl]
  rfl

end Middledriver
